import Mathlib

/-!
# Item catalog data-access layer (`old/mysql.go`)

A shallow embedding of the Go functions `dsn`, `dbConnection`, `insert`,
`multipleInsert`, `selectPrice` and `selectItemsByPrice`, followed by theorems about them.

The Go functions talk to a MySQL server through `database/sql`.  The server and the driver
are not part of the repository, so they appear here as an explicit environment:

* `DB` bundles what a `*sql.DB` handle reaches: the rows of table `item`, the
  auto-increment counter, the set of open prepared-statement handles, the sequence of calls
  issued to the store (`events`) and the lines written through package `log`.
* `Faults` fixes, for one call, which of its steps the driver reports as failed (a timeout of
  the five-second context, a lost connection, a value the server rejects, ...).  A step that
  is not faulted behaves as an ideal table without column capacity limits.
* The store parses the text of a select statement (`tokenize`, `parseSelect`) and evaluates
  the parsed statement (`evalSelect`); what a select means is read off its text.
* Text columns are compared with the collation of the store (`Collation`), an arbitrary
  reflexive relation on strings: the table is created without a collation, so the server
  default applies, which on a stock server ignores letter case.
* A driver failure is always `SqlError.driver`; the sentinel `sql.ErrNoRows` is produced by
  `database/sql` itself and only by `Row.Scan`.

Context deadlines (`context.WithTimeout`, `defer cancelfunc()`) carry no state of their own;
their only observable effect is a failed step, which `Faults` covers.
-/

namespace Mysql

/-! ## Data model -/

/-- Go `type item struct { name string; price int }`. -/
structure item where
  name : String
  price : Int
deriving DecidableEq, Repr

def username : String := "root"

def password : String := "password"

def hostname : String := "127.0.0.1:3306"

def dbname : String := "ecommerce"

/-- Go `dsn`: `fmt.Sprintf("%s:%s@tcp(%s)/%s", username, password, hostname, dbName)`. -/
def dsn (dbName : String) : String :=
  username ++ ":" ++ password ++ "@tcp(" ++ hostname ++ ")/" ++ dbName

/-- Go `error` values that the functions of this file can return. -/
inductive SqlError where
  | errNoRows
  | driver (msg : String)
deriving DecidableEq, Repr

/-- Go `err.Error()`, used by the `%s` verbs of the log lines. -/
def SqlError.Error : SqlError → String
  | .errNoRows => "sql: no rows in result set"
  | .driver msg => msg

/-- A `driver.Value` passed as a statement argument or delivered in a result column. -/
inductive Value where
  | text (s : String)
  | int (n : Int)
deriving DecidableEq, Repr

/-- One persisted row of table `item` (the two timestamp columns are never read). -/
structure Row where
  id : Nat
  name : String
  price : Int
deriving DecidableEq, Repr

/-- A call issued to the store. -/
inductive Event where
  | prepare (query : String)
  | stmtExec (handle : Nat) (args : List Value)
  | stmtQuery (handle : Nat) (args : List Value)
  | rowsClose (handle : Nat)
  | stmtClose (handle : Nat)
deriving DecidableEq, Repr

/-- The comparison the store applies to text values in `item_name = ?`: the collation of the
column.  Every collation holds a string equal to itself. -/
structure Collation where
  eq : String → String → Bool
  refl : ∀ s, eq s s = true

/-- Code points of a string with the ASCII capital letters replaced by the small ones. -/
def foldCase (s : String) : List Nat :=
  s.data.map (fun c => if 65 ≤ c.toNat ∧ c.toNat ≤ 90 then c.toNat + 32 else c.toNat)

/-- A binary collation: only identical strings are equal. -/
def Collation.binary : Collation :=
  ⟨fun a b => decide (a = b), by intro s; simp⟩

/-- A collation that ignores the case of ASCII letters, as the default collation of a stock
server does. -/
def Collation.caseInsensitive : Collation :=
  ⟨fun a b => decide (foldCase a = foldCase b), by intro s; simp⟩

/-- The store behind a `*sql.DB` handle, together with the process log. -/
structure DB where
  table : List Row
  nextId : Nat
  openStmts : List Nat
  nextStmt : Nat
  events : List Event
  log : List String
  collation : Collation

/-- Outcome, for one call, of each step that the driver can fail.
`iter = some (n, msg)` means that row iteration breaks after `n` delivered rows;
`scan i = some msg` means that scanning the `i`-th delivered row fails. -/
structure Faults where
  prepare : Option String
  exec : Option String
  rowsAffected : Option String
  lastInsertId : Option String
  query : Option String
  iter : Option (Nat × String)
  scan : Nat → Option String

/-- Every step succeeds. -/
def noFaults : Faults :=
  ⟨none, none, none, none, none, none, fun _ => none⟩

/-! ## The store: statements it understands -/

def insertHead : String := "INSERT INTO item(item_name, item_price) VALUES "

def placeholderGroup : String := "(?, ?)"

/-- The multi-row insert statement with `n` parameter groups. -/
def insertStatement (n : Nat) : String :=
  insertHead ++ String.intercalate "," (List.replicate n placeholderGroup)

/-- A lexical unit of a statement text. -/
inductive Token where
  | word (s : String)
  | sym (s : String)
  | comma
  | semicolon
  | lparen
  | rparen
  | placeholder
deriving DecidableEq, Repr

/-- Letters, digits and the underscore make up names and keywords. -/
def isWordChar (c : Char) : Bool :=
  let n := c.toNat
  (97 ≤ n && n ≤ 122) || (65 ≤ n && n ≤ 90) || (48 ≤ n && n ≤ 57) || n == 95

/-- Characters that make up comparison and logical operators. -/
def isSymChar (c : Char) : Bool :=
  c == '<' || c == '>' || c == '=' || c == '!' || c == '&' || c == '|'

/-- The name or operator the tokenizer is in the middle of. -/
inductive Pending where
  | idle
  | word (cs : List Char)
  | sym (cs : List Char)

def Pending.flush : Pending → List Token
  | .idle => []
  | .word cs => [Token.word (String.mk cs)]
  | .sym cs => [Token.sym (String.mk cs)]

/-- Splits a statement text into tokens; a character outside the alphabet of the statements
of this layer is a syntax error. -/
def tokenize : List Char → Pending → Option (List Token)
  | [], p => some p.flush
  | c :: cs, p =>
    if isWordChar c then
      match p with
      | .word w => tokenize cs (.word (w ++ [c]))
      | _ => (tokenize cs (.word [c])).map (fun ts => p.flush ++ ts)
    else if isSymChar c then
      match p with
      | .sym w => tokenize cs (.sym (w ++ [c]))
      | _ => (tokenize cs (.sym [c])).map (fun ts => p.flush ++ ts)
    else if c == ' ' then (tokenize cs .idle).map (fun ts => p.flush ++ ts)
    else if c == ',' then (tokenize cs .idle).map (fun ts => p.flush ++ Token.comma :: ts)
    else if c == ';' then (tokenize cs .idle).map (fun ts => p.flush ++ Token.semicolon :: ts)
    else if c == '(' then (tokenize cs .idle).map (fun ts => p.flush ++ Token.lparen :: ts)
    else if c == ')' then (tokenize cs .idle).map (fun ts => p.flush ++ Token.rparen :: ts)
    else if c == '?' then
      (tokenize cs .idle).map (fun ts => p.flush ++ Token.placeholder :: ts)
    else none

/-- The columns of table `item` a statement can name. -/
inductive Column where
  | itemId
  | itemName
  | itemPrice
deriving DecidableEq, Repr

/-- Comparison operators. -/
inductive Op where
  | eq
  | ne
  | ge
  | le
  | gt
  | lt
deriving DecidableEq, Repr

def parseColumn (w : String) : Option Column :=
  if w = "item_id" then some .itemId
  else if w = "item_name" then some .itemName
  else if w = "item_price" then some .itemPrice
  else none

def parseOp (o : String) : Option Op :=
  if o = "=" then some .eq
  else if o = "!=" then some .ne
  else if o = "<>" then some .ne
  else if o = ">=" then some .ge
  else if o = "<=" then some .le
  else if o = ">" then some .gt
  else if o = "<" then some .lt
  else none

/-- A comma-separated list of column names, and the tokens after it. -/
def parseColumns : List Token → Option (List Column × List Token)
  | .word w :: .comma :: rest =>
    match parseColumn w, parseColumns rest with
    | some c, some (cs, rest2) => some (c :: cs, rest2)
    | _, _ => none
  | .word w :: rest =>
    match parseColumn w with
    | some c => some ([c], rest)
    | none => none
  | _ => none

/-- A conjunction `column op ? && column op ? && ...`, and the tokens after it. -/
def parseConds : List Token → Option (List (Column × Op) × List Token)
  | .word w :: .sym o :: .placeholder :: rest =>
    match parseColumn w, parseOp o with
    | some c, some op =>
      match rest with
      | .sym s :: rest2 =>
        if s = "&&" then
          match parseConds rest2 with
          | some (cs, rest3) => some ((c, op) :: cs, rest3)
          | none => none
        else none
      | _ => some ([(c, op)], rest)
    | _, _ => none
  | _ => none

/-- A parsed `select columns from item where conds`: the selected columns in order, and the
comparisons of the where clause, each taking the next statement argument. -/
structure Select where
  columns : List Column
  conds : List (Column × Op)
deriving DecidableEq, Repr

/-- Parse of `select columns from item [where conds] [;]`. -/
def parseSelect (ts : List Token) : Option Select :=
  match ts with
  | .word kw :: rest =>
    if kw = "select" then
      match parseColumns rest with
      | some (cols, .word f :: .word t :: rest2) =>
        if f = "from" ∧ t = "item" then
          match rest2 with
          | [] => some ⟨cols, []⟩
          | [.semicolon] => some ⟨cols, []⟩
          | .word wh :: rest3 =>
            if wh = "where" then
              match parseConds rest3 with
              | some (conds, []) => some ⟨cols, conds⟩
              | some (conds, [.semicolon]) => some ⟨cols, conds⟩
              | _ => none
            else none
          | _ => none
        else none
      | _ => none
    else none
  | _ => none

/-- The statements the store accepts. -/
inductive Statement where
  | insertRows (n : Nat)
  | select (s : Select)
deriving DecidableEq, Repr

/-- Server-side parse of a statement text: a multi-row insert into
`item(item_name, item_price)` with at least one parameter group, or a select parsed from its
text; anything else is a syntax error. -/
def parseStatement (q : String) : Option Statement :=
  let n := (q.length + 1 - insertHead.length) / (placeholderGroup.length + 1)
  if 0 < n ∧ q = insertStatement n then some (.insertRows n)
  else ((tokenize q.data .idle).bind parseSelect).map Statement.select

def rejectedStatement : SqlError :=
  .driver "Error 1064: You have an error in your SQL syntax"

/-- A prepared statement `*sql.Stmt`. -/
structure Stmt where
  handle : Nat
  statement : Statement
deriving DecidableEq, Repr

/-- Go `sql.Result`: what `LastInsertId()` and `RowsAffected()` will answer. -/
structure Result where
  lastInsertId : Except SqlError Int
  rowsAffected : Except SqlError Int

/-- Go `*sql.Rows`: the rows still to be delivered by `Next()`, and what `Err()` reports once
`Next()` has returned false. -/
structure Rows where
  handle : Nat
  pending : List (List Value)
  err : Option SqlError

/-- Go `log.Printf` / `log.Println`: one more line in the log. -/
def DB.Printf (db : DB) (line : String) : DB :=
  { db with log := db.log ++ [line] }

/-- Go `db.PrepareContext(ctx, query)`. -/
def DB.PrepareContext (db : DB) (fault : Option String) (query : String) :
    DB × Except SqlError Stmt :=
  let db1 := { db with events := db.events ++ [Event.prepare query] }
  match fault with
  | some msg => (db1, .error (.driver msg))
  | none =>
    match parseStatement query with
    | none => (db1, .error rejectedStatement)
    | some s =>
      ({ db1 with openStmts := db1.nextStmt :: db1.openStmts, nextStmt := db1.nextStmt + 1 },
        .ok ⟨db1.nextStmt, s⟩)

/-- Go `stmt.Close()`. -/
def Stmt.Close (stmt : Stmt) (db : DB) : DB :=
  { db with
    openStmts := db.openStmts.erase stmt.handle
    events := db.events ++ [Event.stmtClose stmt.handle] }

/-- Positional binding of the arguments of an insert to the columns
`(item_name, item_price)` of successive rows. -/
def bindRows : List Value → Option (List (String × Int))
  | [] => some []
  | .text s :: .int n :: rest => (bindRows rest).map (fun rs => (s, n) :: rs)
  | _ => none

/-- The rows an insert appends, with consecutive identities from `firstId`. -/
def newRows (firstId : Nat) : List (String × Int) → List Row
  | [] => []
  | (s, n) :: rest => ⟨firstId, s, n⟩ :: newRows (firstId + 1) rest

def readResult (fault : Option String) (v : Int) : Except SqlError Int :=
  match fault with
  | some msg => .error (.driver msg)
  | none => .ok v

/-- Go `stmt.ExecContext(ctx, args...)`.  An insert is all-or-nothing; its result reports the
identity of the first inserted row and the number of inserted rows. -/
def Stmt.ExecContext (stmt : Stmt) (db : DB) (f : Faults) (args : List Value) :
    DB × Except SqlError Result :=
  let db1 := { db with events := db.events ++ [Event.stmtExec stmt.handle args] }
  match f.exec with
  | some msg => (db1, .error (.driver msg))
  | none =>
    match stmt.statement with
    | .insertRows n =>
      if args.length ≠ 2 * n then
        (db1, .error (.driver
          ("sql: expected " ++ toString (2 * n) ++ " arguments, got " ++ toString args.length)))
      else
        match bindRows args with
        | none => (db1, .error (.driver "Error 1366: Incorrect value for column"))
        | some vals =>
          ({ db1 with table := db1.table ++ newRows db1.nextId vals, nextId := db1.nextId + n },
            .ok ⟨readResult f.lastInsertId db1.nextId, readResult f.rowsAffected n⟩)
    | _ => (db1, .ok ⟨readResult f.lastInsertId 0, readResult f.rowsAffected 0⟩)

/-- The value a row holds in a column. -/
def Column.value (r : Row) : Column → Value
  | .itemId => Value.int r.id
  | .itemName => Value.text r.name
  | .itemPrice => Value.int r.price

/-- Truth of `a op b` on integers, `a` the column value and `b` the argument. -/
def Op.holds : Op → Int → Int → Bool
  | .eq, a, b => decide (a = b)
  | .ne, a, b => decide (a ≠ b)
  | .ge, a, b => decide (b ≤ a)
  | .le, a, b => decide (a ≤ b)
  | .gt, a, b => decide (b < a)
  | .lt, a, b => decide (a < b)

/-- Truth of `column op ?` for a column value and an argument: integers compare by value,
texts by the collation (equality and inequality only); other combinations are not modelled. -/
def compareCell (coll : Collation) (op : Op) : Value → Value → Option Bool
  | .int a, .int b => some (op.holds a b)
  | .text a, .text b =>
    match op with
    | .eq => some (coll.eq a b)
    | .ne => some (!coll.eq a b)
    | _ => none
  | _, _ => none

/-- Truth of the where clause on a row: every comparison holds, the `i`-th one against the
`i`-th argument. -/
def rowMatches (coll : Collation) (r : Row) : List (Column × Op) → List Value → Option Bool
  | [], [] => some true
  | (c, op) :: cs, a :: as =>
    match compareCell coll op (c.value r) a, rowMatches coll r cs as with
    | some x, some y => some (x && y)
    | _, _ => none
  | _, _ => none

/-- The rows of the table that satisfy the where clause, in table order. -/
def selectRows (coll : Collation) (conds : List (Column × Op)) (args : List Value) :
    List Row → Option (List Row)
  | [] => some []
  | r :: rs =>
    match rowMatches coll r conds args, selectRows coll conds args rs with
    | some true, some out => some (r :: out)
    | some false, some out => some out
    | _, _ => none

/-- Evaluation of a parsed select: the selected columns of the rows that satisfy the where
clause. -/
def evalSelect (coll : Collation) (sel : Select) (table : List Row) (args : List Value) :
    Except SqlError (List (List Value)) :=
  if args.length ≠ sel.conds.length then
    .error (.driver ("sql: expected " ++ toString sel.conds.length ++ " arguments, got " ++
      toString args.length))
  else
    match selectRows coll sel.conds args table with
    | some rows => .ok (rows.map (fun r => sel.columns.map (fun c => c.value r)))
    | none => .error (.driver "unsupported comparison")

/-- The result columns the store computes for a query. -/
def evalQuery (coll : Collation) :
    Statement → List Row → List Value → Except SqlError (List (List Value))
  | .select sel, table, args => evalSelect coll sel table args
  | .insertRows _, _, _ => .error (.driver "statement returns no rows")

/-- Closed form of the result of a lookup by name: the price of every row whose name the
collation holds equal to `name`. -/
def priceCells (coll : Collation) (table : List Row) (name : String) : List (List Value) :=
  (table.filter (fun r => coll.eq r.name name)).map (fun r => [Value.int r.price])

/-- Closed form of the result of an inclusive range scan: name and price of every row with
`lo ≤ price ≤ hi`. -/
def rangeCells (table : List Row) (lo hi : Int) : List (List Value) :=
  (table.filter (fun r => lo ≤ r.price ∧ r.price ≤ hi)).map
    (fun r => [Value.text r.name, Value.int r.price])

/-- The result set as the driver delivers it: complete, or cut short by an iteration
failure. -/
def deliver (iter : Option (Nat × String)) (handle : Nat) (cells : List (List Value)) : Rows :=
  match iter with
  | none => ⟨handle, cells, none⟩
  | some (n, msg) => ⟨handle, cells.take n, some (.driver msg)⟩

/-- Go `stmt.QueryContext(ctx, args...)`. -/
def Stmt.QueryContext (stmt : Stmt) (db : DB) (f : Faults) (args : List Value) :
    DB × Except SqlError Rows :=
  let db1 := { db with events := db.events ++ [Event.stmtQuery stmt.handle args] }
  match f.query with
  | some msg => (db1, .error (.driver msg))
  | none =>
    match evalQuery db.collation stmt.statement db.table args with
    | .error e => (db1, .error e)
    | .ok cells => (db1, .ok (deliver f.iter stmt.handle cells))

/-- Go `rows.Close()`. -/
def Rows.Close (rows : Rows) (db : DB) : DB :=
  { db with events := db.events ++ [Event.rowsClose rows.handle] }

/-- Conversion of a column into a Go `string` destination. -/
def scanString : Value → Except SqlError String
  | .text s => .ok s
  | .int n => .ok (toString n)

/-- Conversion of a column into a Go `int` destination. -/
def scanInt : Value → Except SqlError Int
  | .int n => .ok n
  | .text s =>
    match s.toInt? with
    | some n => .ok n
    | none => .error (.driver "sql: Scan error: converting driver.Value type string to a int")

/-- Go `rows.Scan(&prd.name, &prd.price)`. -/
def scanItem (fault : Option String) (cols : List Value) : Except SqlError item :=
  match fault with
  | some msg => .error (.driver msg)
  | none =>
    match cols with
    | [a, b] =>
      match scanString a, scanInt b with
      | .ok name, .ok price => .ok ⟨name, price⟩
      | .error e, _ => .error e
      | _, .error e => .error e
    | _ => .error (.driver "sql: expected 2 destination arguments in Scan")

/-- Go `rows.Scan(&price)`. -/
def scanPrice (fault : Option String) (cols : List Value) : Except SqlError Int :=
  match fault with
  | some msg => .error (.driver msg)
  | none =>
    match cols with
    | [a] => scanInt a
    | _ => .error (.driver "sql: expected 1 destination arguments in Scan")

/-- Go `stmt.QueryRowContext(ctx, args...).Scan(&price)` of `database/sql`: a query error is
surfaced by `Scan`; no row yields the iteration error if there is one and `sql.ErrNoRows`
otherwise; else the first row is scanned.  The result set is closed in every case in which it
was opened. -/
def Stmt.QueryRowScan (stmt : Stmt) (db : DB) (f : Faults) (args : List Value) :
    DB × Except SqlError Int :=
  match stmt.QueryContext db f args with
  | (db1, .error e) => (db1, .error e)
  | (db1, .ok rows) =>
    match rows.pending with
    | [] => (rows.Close db1, .error (rows.err.getD .errNoRows))
    | cols :: _ => (rows.Close db1, scanPrice (f.scan 0) cols)

/-! ## Write path -/

/-- The part of `insert` that runs while the prepared statement is held: from
`stmt.ExecContext` to the `return`. -/
def insert.body (stmt : Stmt) (db1 : DB) (f : Faults) (p : item) : DB × Option SqlError :=
  match stmt.ExecContext db1 f [Value.text p.name, Value.int p.price] with
  | (db2, .error err) =>
    (db2.Printf ("Error " ++ err.Error ++ " when inserting row into items table"), some err)
  | (db2, .ok res) =>
    match res.rowsAffected with
    | .error err =>
      (db2.Printf ("Error " ++ err.Error ++ " when finding rows affected"), some err)
    | .ok rows =>
      let db3 := db2.Printf (toString rows ++ " items created ")
      match res.lastInsertId with
      | .error err =>
        (db3.Printf ("Error " ++ err.Error ++ " when getting last inserted item"), some err)
      | .ok prdID =>
        (db3.Printf ("Item with ID " ++ toString prdID ++ " created"), none)

/-- Go `insert(db, p) error`. -/
def insert (db : DB) (f : Faults) (p : item) : DB × Option SqlError :=
  let query := "INSERT INTO item(item_name, item_price) VALUES (?, ?)"
  match db.PrepareContext f.prepare query with
  | (db1, .error err) =>
    (db1.Printf ("Error " ++ err.Error ++ " when preparing SQL statement"), some err)
  | (db1, .ok stmt) =>
    let out := insert.body stmt db1 f p
    -- defer stmt.Close()
    (stmt.Close out.1, out.2)

/-- The loop of `multipleInsert`: one `"(?, ?)"` appended to `inserts` and `v.name, v.price`
appended to `params` for each element of `items`. -/
def multipleInsert.build (items : List item) : List String × List Value :=
  items.foldl
    (fun acc v => (acc.1 ++ ["(?, ?)"], acc.2 ++ [Value.text v.name, Value.int v.price]))
    ([], [])

/-- The statement text of `multipleInsert`: `query + strings.Join(inserts, ",")`. -/
def multipleInsert.query (items : List item) : String :=
  "INSERT INTO item(item_name, item_price) VALUES " ++
    String.intercalate "," (multipleInsert.build items).1

/-- The part of `multipleInsert` that runs while the prepared statement is held. -/
def multipleInsert.body (stmt : Stmt) (db1 : DB) (f : Faults) (params : List Value) :
    DB × Option SqlError :=
  match stmt.ExecContext db1 f params with
  | (db2, .error err) =>
    (db2.Printf ("Error " ++ err.Error ++ " when inserting row into items table"), some err)
  | (db2, .ok res) =>
    match res.rowsAffected with
    | .error err =>
      (db2.Printf ("Error " ++ err.Error ++ " when finding rows affected"), some err)
    | .ok rows =>
      (db2.Printf (toString rows ++ " items created simultaneously"), none)

/-- Go `multipleInsert(db, items) error`. -/
def multipleInsert (db : DB) (f : Faults) (items : List item) : DB × Option SqlError :=
  let params := (multipleInsert.build items).2
  let query := multipleInsert.query items
  let db0 := db.Printf ("query is " ++ query)
  match db0.PrepareContext f.prepare query with
  | (db1, .error err) =>
    (db1.Printf ("Error " ++ err.Error ++ " when preparing SQL statement"), some err)
  | (db1, .ok stmt) =>
    let out := multipleInsert.body stmt db1 f params
    -- defer stmt.Close()
    (stmt.Close out.1, out.2)

/-! ## Read path -/

/-- The part of `selectPrice` that runs while the prepared statement is held. -/
def selectPrice.body (stmt : Stmt) (db1 : DB) (f : Faults) (itemName : String) :
    DB × Int × Option SqlError :=
  match stmt.QueryRowScan db1 f [Value.text itemName] with
  | (db2, .error err) => (db2, 0, some err)
  | (db2, .ok price) => (db2, price, none)

/-- Go `selectPrice(db, itemName) (int, error)`. -/
def selectPrice (db : DB) (f : Faults) (itemName : String) : DB × Int × Option SqlError :=
  let db0 := db.Printf "Getting item price"
  let query := "select item_price from item where item_name = ?"
  match db0.PrepareContext f.prepare query with
  | (db1, .error err) =>
    (db1.Printf ("Error " ++ err.Error ++ " when preparing SQL statement"), 0, some err)
  | (db1, .ok stmt) =>
    let out := selectPrice.body stmt db1 f itemName
    -- defer stmt.Close()
    (stmt.Close out.1, out.2)

/-- The loop `for rows.Next() { ... rows.Scan ... items = append(items, prd) }` of
`selectItemsByPrice`, started at the `i`-th delivered row with `items` collected so far. -/
def selectItemsByPrice.loop (f : Faults) :
    Nat → List (List Value) → List item → Except SqlError (List item)
  | _, [], items => .ok items
  | i, cols :: rest, items =>
    match scanItem (f.scan i) cols with
    | .error err => .error err
    | .ok prd => selectItemsByPrice.loop f (i + 1) rest (items ++ [prd])

/-- The part of `selectItemsByPrice` that runs while the result set is open: the loop and
the check of `rows.Err()`. -/
def selectItemsByPrice.collect (f : Faults) (rows : Rows) : List item × Option SqlError :=
  match selectItemsByPrice.loop f 0 rows.pending [] with
  | .error err => ([], some err)
  | .ok items =>
    match rows.err with
    | some err => ([], some err)
    | none => (items, none)

/-- The part of `selectItemsByPrice` that runs while the prepared statement is held. -/
def selectItemsByPrice.body (stmt : Stmt) (db1 : DB) (f : Faults) (minPrice maxPrice : Int) :
    DB × List item × Option SqlError :=
  match stmt.QueryContext db1 f [Value.int minPrice, Value.int maxPrice] with
  | (db2, .error err) => (db2, [], some err)
  | (db2, .ok rows) =>
    let res := selectItemsByPrice.collect f rows
    -- defer rows.Close()
    (rows.Close db2, res)

/-- Go `selectItemsByPrice(db, minPrice, maxPrice) ([]item, error)`. -/
def selectItemsByPrice (db : DB) (f : Faults) (minPrice maxPrice : Int) :
    DB × List item × Option SqlError :=
  let db0 := db.Printf "Getting items by price"
  let query :=
    "select item_name, item_price from item where item_price >= ? && item_price <= ?;"
  match db0.PrepareContext f.prepare query with
  | (db1, .error err) =>
    (db1.Printf ("Error " ++ err.Error ++ " when preparing SQL statement"), [], some err)
  | (db1, .ok stmt) =>
    let out := selectItemsByPrice.body stmt db1 f minPrice maxPrice
    -- defer stmt.Close()
    (stmt.Close out.1, out.2)

/-! ## Session acquisition -/

/-- A step `dbConnection` performs against `database/sql`. -/
inductive ConnStep where
  | sqlOpen (dataSourceName : String)
  | execContext (query : String)
  | rowsAffected
  | close
  | setMaxOpenConns (n : Nat)
  | setMaxIdleConns (n : Nat)
  | setConnMaxLifetime (seconds : Nat)
  | pingContext
deriving DecidableEq, Repr

/-- Outcome of each step of `dbConnection` that can fail. -/
structure ConnFaults where
  openServer : Option String
  createDb : Option String
  rowsAffected : Option String
  openDb : Option String
  ping : Option String
deriving DecidableEq, Repr

/-- The pooled handle `*sql.DB` that `dbConnection` hands out. -/
structure Pool where
  dataSourceName : String
  maxOpenConns : Nat
  maxIdleConns : Nat
  connMaxLifetime : Nat
deriving DecidableEq, Repr

/-- What one run of `dbConnection` did and returned. -/
structure ConnRun where
  steps : List ConnStep
  log : List String
  db : Option Pool
  err : Option SqlError
deriving DecidableEq, Repr

/-- Go `dbConnection() (*sql.DB, error)`; `no` is the affected-row count the store reports for
the `CREATE DATABASE` statement. -/
def dbConnection (f : ConnFaults) (no : Int) : ConnRun :=
  let s1 := [ConnStep.sqlOpen (dsn "")]
  match f.openServer with
  | some msg => ⟨s1, ["Error " ++ msg ++ " when opening DB"], none, some (.driver msg)⟩
  | none =>
    let s2 := s1 ++ [ConnStep.execContext ("CREATE DATABASE IF NOT EXISTS " ++ dbname)]
    match f.createDb with
    | some msg => ⟨s2, ["Error " ++ msg ++ " when creating DB"], none, some (.driver msg)⟩
    | none =>
      let s3 := s2 ++ [ConnStep.rowsAffected]
      match f.rowsAffected with
      | some msg => ⟨s3, ["Error " ++ msg ++ " when fetching rows"], none, some (.driver msg)⟩
      | none =>
        let l1 := ["rows affected " ++ toString no]
        let s4 := s3 ++ [ConnStep.close, ConnStep.sqlOpen (dsn dbname)]
        match f.openDb with
        | some msg =>
          ⟨s4, l1 ++ ["Error " ++ msg ++ " when opening DB"], none, some (.driver msg)⟩
        | none =>
          let s5 := s4 ++ [ConnStep.setMaxOpenConns 20, ConnStep.setMaxIdleConns 20,
            ConnStep.setConnMaxLifetime (5 * 60), ConnStep.pingContext]
          match f.ping with
          | some msg =>
            ⟨s5, l1 ++ ["Errors " ++ msg ++ " pinging DB"], none, some (.driver msg)⟩
          | none =>
            ⟨s5, l1 ++ ["Connected to DB " ++ dbname ++ " successfully"],
              some ⟨dsn dbname, 20, 20, 5 * 60⟩, none⟩

/-! ## Concrete inputs used by the examples -/

/-- A fresh store on a stock server: no row, no open statement, nothing issued yet. -/
def emptyDB : DB := ⟨[], 1, [], 0, [], [], Collation.caseInsensitive⟩

/-- The store of the end-to-end example of `main`. -/
def demoDB : DB :=
  ⟨[⟨1, "iphone", 950⟩, ⟨2, "Galaxy", 990⟩, ⟨3, "iPad", 500⟩], 4, [], 0, [], [],
    Collation.caseInsensitive⟩

/-- The statement the store parses from the text `selectPrice` prepares. -/
def priceLookup : Select := ⟨[Column.itemPrice], [(Column.itemName, Op.eq)]⟩

/-- The statement the store parses from the text `selectItemsByPrice` prepares. -/
def rangeScan : Select :=
  ⟨[Column.itemName, Column.itemPrice], [(Column.itemPrice, Op.ge), (Column.itemPrice, Op.le)]⟩

/-- A fault assignment under which scanning the second delivered row fails. -/
def secondScanFails : Faults :=
  ⟨none, none, none, none, none, none, fun i => if i = 1 then some "scan failed" else none⟩

/-- Closed form of the parameter list: name then price of each item, in input order. -/
def flatParams : List item → List Value
  | [] => []
  | v :: vs => Value.text v.name :: Value.int v.price :: flatParams vs

/-- The (name, price) pairs of the items, in input order. -/
def pairsOf (items : List item) : List (String × Int) :=
  items.map (fun v => (v.name, v.price))

/-- Number of times the statement handle `h` has been closed in a sequence of calls. -/
def closeCount (h : Nat) (es : List Event) : Nat :=
  es.count (Event.stmtClose h)

/-- Between `db` and `db1` no statement was prepared and none was closed. -/
def SameStatements (db db1 : DB) : Prop :=
  db1.openStmts = db.openStmts ∧ db1.nextStmt = db.nextStmt ∧
    ∀ h, closeCount h db1.events = closeCount h db.events

/-- Statement discipline of one call that takes the store from `db` to `db1`: the set of open
statement handles is unchanged, and either no statement was prepared and none closed, or
exactly one statement (handle `db.nextStmt`) was prepared and it was closed exactly once,
no other handle being closed. -/
def ReleasesStatement (db db1 : DB) : Prop :=
  db1.openStmts = db.openStmts ∧
    ((db1.nextStmt = db.nextStmt ∧ ∀ h, closeCount h db1.events = closeCount h db.events) ∨
     (db1.nextStmt = db.nextStmt + 1 ∧
      closeCount db.nextStmt db1.events = closeCount db.nextStmt db.events + 1 ∧
      ∀ h, h ≠ db.nextStmt → closeCount h db1.events = closeCount h db.events))

/-! ## Lemmas on the statement builder -/

theorem build_foldl (items : List item) (a : List String) (b : List Value) :
    items.foldl
      (fun acc v => (acc.1 ++ ["(?, ?)"], acc.2 ++ [Value.text v.name, Value.int v.price]))
      (a, b)
    = (a ++ List.replicate items.length "(?, ?)", b ++ flatParams items) := by
  induction items generalizing a b with
  | nil => simp [flatParams]
  | cons v vs ih =>
    simp only [List.foldl_cons, ih, List.length_cons, List.replicate_succ, flatParams]
    simp

theorem build_eq (items : List item) :
    multipleInsert.build items
      = (List.replicate items.length "(?, ?)", flatParams items) := by
  simp [multipleInsert.build, build_foldl]

theorem query_eq (items : List item) :
    multipleInsert.query items = insertStatement items.length := by
  simp [multipleInsert.query, build_eq, insertStatement, insertHead, placeholderGroup]

theorem flatParams_length (items : List item) :
    (flatParams items).length = 2 * items.length := by
  induction items with
  | nil => rfl
  | cons v vs ih => simp [flatParams, ih]; omega

theorem flatParams_get (items : List item) (i : Nat) (v : item) (h : items[i]? = some v) :
    (flatParams items)[2 * i]? = some (Value.text v.name) ∧
    (flatParams items)[2 * i + 1]? = some (Value.int v.price) := by
  induction items generalizing i with
  | nil => simp at h
  | cons w ws ih =>
    cases i with
    | zero =>
      simp at h
      subst h
      simp [flatParams]
    | succ j =>
      simp at h
      have := ih j h
      have e1 : 2 * (j + 1) = (2 * j) + 1 + 1 := by omega
      rw [e1]
      simpa [flatParams] using this

theorem go_length (n : Nat) (acc : String) :
    (String.intercalate.go acc "," (List.replicate n "(?, ?)")).length
      = acc.length + 7 * n := by
  induction n generalizing acc with
  | zero => simp [String.intercalate.go]
  | succ k ih =>
    simp only [List.replicate_succ, String.intercalate.go, ih, String.length_append]
    have h1 : ",".length = 1 := by decide
    have h2 : "(?, ?)".length = 6 := by decide
    omega

theorem go_count (n : Nat) (acc : String) :
    (String.intercalate.go acc "," (List.replicate n "(?, ?)")).data.count '?'
      = acc.data.count '?' + 2 * n := by
  induction n generalizing acc with
  | zero => simp [String.intercalate.go]
  | succ k ih =>
    simp only [List.replicate_succ, String.intercalate.go, ih, String.data_append,
      List.count_append]
    have h1 : List.count '?' [','] = 0 := by decide
    have h2 : List.count '?' ['(', '?', ',', ' ', '?', ')'] = 2 := by decide
    omega

theorem groups_length (n : Nat) :
    (String.intercalate "," (List.replicate (n + 1) "(?, ?)")).length = 7 * n + 6 := by
  simp only [List.replicate_succ, String.intercalate, go_length]
  have h2 : "(?, ?)".length = 6 := by decide
  omega

theorem groups_count (n : Nat) :
    (String.intercalate "," (List.replicate n "(?, ?)")).data.count '?' = 2 * n := by
  cases n with
  | zero => decide
  | succ k =>
    simp only [List.replicate_succ, String.intercalate, go_count]
    have h2 : List.count '?' ['(', '?', ',', ' ', '?', ')'] = 2 := by decide
    omega

theorem insertStatement_length (n : Nat) :
    (insertStatement (n + 1)).length = 7 * n + 53 := by
  have h : insertHead.length = 47 := by decide
  simp only [insertStatement, placeholderGroup, String.length_append, groups_length, h]
  omega

theorem insertStatement_count (n : Nat) :
    (insertStatement n).data.count '?' = 2 * n := by
  have h : insertHead.data.count '?' = 0 := by decide
  simp only [insertStatement, placeholderGroup, String.data_append, List.count_append,
    groups_count, h]
  omega

theorem parse_insertStatement (n : Nat) :
    parseStatement (insertStatement (n + 1)) = some (Statement.insertRows (n + 1)) := by
  have hl := insertStatement_length n
  have h1 : insertHead.length = 47 := by decide
  have h2 : placeholderGroup.length = 6 := by decide
  have hn : ((insertStatement (n + 1)).length + 1 - insertHead.length)
      / (placeholderGroup.length + 1) = n + 1 := by
    rw [hl, h1, h2]
    omega
  unfold parseStatement
  simp only [hn]
  simp

theorem parse_insertHead : parseStatement (insertStatement 0) = none := by
  have h : insertStatement 0 = "INSERT INTO item(item_name, item_price) VALUES " := by decide
  rw [h]
  decide

theorem bindRows_flatParams (items : List item) :
    bindRows (flatParams items) = some (pairsOf items) := by
  induction items with
  | nil => rfl
  | cons v vs ih => simp [flatParams, bindRows, ih, pairsOf]

theorem newRows_length (k : Nat) (l : List (String × Int)) : (newRows k l).length = l.length := by
  induction l generalizing k with
  | nil => rfl
  | cons a as ih =>
    obtain ⟨s, n⟩ := a
    simp [newRows, ih]

/-! ## Lemmas on the store primitives -/

theorem prepare_fault (db : DB) (msg q : String) :
    db.PrepareContext (some msg) q
      = ({ db with events := db.events ++ [Event.prepare q] }, .error (.driver msg)) := rfl

theorem prepare_reject (db : DB) (q : String) (h : parseStatement q = none) :
    db.PrepareContext none q
      = ({ db with events := db.events ++ [Event.prepare q] }, .error rejectedStatement) := by
  unfold DB.PrepareContext
  simp only [h]

theorem prepare_ok (db : DB) (q : String) (s : Statement) (h : parseStatement q = some s) :
    db.PrepareContext none q
      = ({ db with
            events := db.events ++ [Event.prepare q]
            openStmts := db.nextStmt :: db.openStmts
            nextStmt := db.nextStmt + 1 }, .ok ⟨db.nextStmt, s⟩) := by
  unfold DB.PrepareContext
  simp only [h]

theorem exec_events (stmt : Stmt) (db : DB) (f : Faults) (args : List Value) :
    (stmt.ExecContext db f args).1.events = db.events ++ [Event.stmtExec stmt.handle args] ∧
    (stmt.ExecContext db f args).1.openStmts = db.openStmts ∧
    (stmt.ExecContext db f args).1.nextStmt = db.nextStmt ∧
    (stmt.ExecContext db f args).1.log = db.log := by
  unfold Stmt.ExecContext
  cases f.exec with
  | some m => simp
  | none =>
    cases stmt.statement with
    | insertRows n =>
      by_cases hl : args.length = 2 * n
      · cases hb : bindRows args <;> simp [hl, hb]
      · simp [hl]
    | select sel => simp

theorem exec_insert_ok (h : Nat) (db : DB) (f : Faults) (items : List item)
    (he : f.exec = none) :
    (Stmt.mk h (Statement.insertRows items.length)).ExecContext db f (flatParams items)
      = ({ db with
            events := db.events ++ [Event.stmtExec h (flatParams items)]
            table := db.table ++ newRows db.nextId (pairsOf items)
            nextId := db.nextId + items.length },
          .ok ⟨readResult f.lastInsertId db.nextId, readResult f.rowsAffected items.length⟩) := by
  simp [Stmt.ExecContext, he, flatParams_length, bindRows_flatParams]

theorem query_events (stmt : Stmt) (db : DB) (f : Faults) (args : List Value) :
    (stmt.QueryContext db f args).1
      = { db with events := db.events ++ [Event.stmtQuery stmt.handle args] } := by
  unfold Stmt.QueryContext
  cases f.query with
  | some m => simp
  | none => cases evalQuery db.collation stmt.statement db.table args <;> simp

theorem insert_body_events (stmt : Stmt) (db1 : DB) (f : Faults) (p : item) :
    (insert.body stmt db1 f p).1.events
      = db1.events ++ [Event.stmtExec stmt.handle [Value.text p.name, Value.int p.price]] ∧
    (insert.body stmt db1 f p).1.openStmts = db1.openStmts ∧
    (insert.body stmt db1 f p).1.nextStmt = db1.nextStmt := by
  unfold insert.body
  have hev := exec_events stmt db1 f [Value.text p.name, Value.int p.price]
  generalize stmt.ExecContext db1 f [Value.text p.name, Value.int p.price] = r at hev ⊢
  obtain ⟨db2, res⟩ := r
  simp only at hev
  cases res with
  | error e => simp [DB.Printf, hev]
  | ok res =>
    rcases h1 : res.rowsAffected with e | rows
    · simp [DB.Printf, hev, h1]
    · rcases h2 : res.lastInsertId with e | prdID <;> simp [DB.Printf, hev, h1, h2]

theorem multipleInsert_body_events (stmt : Stmt) (db1 : DB) (f : Faults) (params : List Value) :
    (multipleInsert.body stmt db1 f params).1.events
      = db1.events ++ [Event.stmtExec stmt.handle params] ∧
    (multipleInsert.body stmt db1 f params).1.openStmts = db1.openStmts ∧
    (multipleInsert.body stmt db1 f params).1.nextStmt = db1.nextStmt := by
  unfold multipleInsert.body
  have hev := exec_events stmt db1 f params
  generalize stmt.ExecContext db1 f params = r at hev ⊢
  obtain ⟨db2, res⟩ := r
  simp only at hev
  cases res with
  | error e => simp [DB.Printf, hev]
  | ok res =>
    rcases h1 : res.rowsAffected with e | rows <;> simp [DB.Printf, hev, h1]

theorem closeCount_append (h : Nat) (a b : List Event) :
    closeCount h (a ++ b) = closeCount h a + closeCount h b := by
  simp [closeCount, List.count_append]

theorem sameStatements_of_events (db db1 : DB) (mid : List Event)
    (he : db1.events = db.events ++ mid) (ho : db1.openStmts = db.openStmts)
    (hn : db1.nextStmt = db.nextStmt) (hmid : ∀ h, closeCount h mid = 0) :
    SameStatements db db1 := by
  refine ⟨ho, hn, ?_⟩
  intro h
  rw [he, closeCount_append, hmid h]
  rfl

theorem queryRowScan_same (stmt : Stmt) (db1 : DB) (f : Faults) (args : List Value) :
    SameStatements db1 (stmt.QueryRowScan db1 f args).1 := by
  have key : ∃ mid, (stmt.QueryRowScan db1 f args).1.events = db1.events ++ mid ∧
      (stmt.QueryRowScan db1 f args).1.openStmts = db1.openStmts ∧
      (stmt.QueryRowScan db1 f args).1.nextStmt = db1.nextStmt ∧
      ∀ h, closeCount h mid = 0 := by
    unfold Stmt.QueryRowScan
    have hq := query_events stmt db1 f args
    generalize stmt.QueryContext db1 f args = r at hq ⊢
    obtain ⟨db2, res⟩ := r
    simp only at hq
    subst hq
    cases res with
    | error e =>
      exact ⟨[Event.stmtQuery stmt.handle args], by simp, by simp, by simp,
        by intro h; simp [closeCount]⟩
    | ok rows =>
      refine ⟨[Event.stmtQuery stmt.handle args, Event.rowsClose rows.handle], ?_, ?_, ?_,
        by intro h; simp [closeCount]⟩ <;>
      rcases hp : rows.pending with _ | ⟨c, cs⟩ <;> simp [Rows.Close, hp]
  obtain ⟨mid, h1, h2, h3, h4⟩ := key
  exact sameStatements_of_events _ _ mid h1 h2 h3 h4

theorem selectPrice_body_same (stmt : Stmt) (db1 : DB) (f : Faults) (itemName : String) :
    SameStatements db1 (selectPrice.body stmt db1 f itemName).1 := by
  unfold selectPrice.body
  have hq := queryRowScan_same stmt db1 f [Value.text itemName]
  generalize stmt.QueryRowScan db1 f [Value.text itemName] = r at hq ⊢
  obtain ⟨db2, res⟩ := r
  cases res <;> exact hq

theorem selectItemsByPrice_body_same (stmt : Stmt) (db1 : DB) (f : Faults) (lo hi : Int) :
    SameStatements db1 (selectItemsByPrice.body stmt db1 f lo hi).1 := by
  have key : ∃ mid, (selectItemsByPrice.body stmt db1 f lo hi).1.events = db1.events ++ mid ∧
      (selectItemsByPrice.body stmt db1 f lo hi).1.openStmts = db1.openStmts ∧
      (selectItemsByPrice.body stmt db1 f lo hi).1.nextStmt = db1.nextStmt ∧
      ∀ h, closeCount h mid = 0 := by
    unfold selectItemsByPrice.body
    have hq := query_events stmt db1 f [Value.int lo, Value.int hi]
    generalize stmt.QueryContext db1 f [Value.int lo, Value.int hi] = r at hq ⊢
    obtain ⟨db2, res⟩ := r
    simp only at hq
    subst hq
    cases res with
    | error e =>
      exact ⟨[Event.stmtQuery stmt.handle [Value.int lo, Value.int hi]], by simp, by simp,
        by simp, by intro h; simp [closeCount]⟩
    | ok rows =>
      exact ⟨[Event.stmtQuery stmt.handle [Value.int lo, Value.int hi],
        Event.rowsClose rows.handle], by simp [Rows.Close], by simp [Rows.Close],
        by simp [Rows.Close], by intro h; simp [closeCount]⟩
  obtain ⟨mid, h1, h2, h3, h4⟩ := key
  exact sameStatements_of_events _ _ mid h1 h2 h3 h4

theorem insert_body_same (stmt : Stmt) (db1 : DB) (f : Faults) (p : item) :
    SameStatements db1 (insert.body stmt db1 f p).1 :=
  have h := insert_body_events stmt db1 f p
  sameStatements_of_events _ _ _ h.1 h.2.1 h.2.2 (by intro h; simp [closeCount])

theorem multipleInsert_body_same (stmt : Stmt) (db1 : DB) (f : Faults) (params : List Value) :
    SameStatements db1 (multipleInsert.body stmt db1 f params).1 :=
  have h := multipleInsert_body_events stmt db1 f params
  sameStatements_of_events _ _ _ h.1 h.2.1 h.2.2 (by intro h; simp [closeCount])

/-! ## Statement discipline of a call: prepare, body, deferred close -/

theorem releases_of_failed_prepare (db db0 : DB) (q line : String)
    (he : db0.events = db.events) (ho : db0.openStmts = db.openStmts)
    (hn : db0.nextStmt = db.nextStmt) :
    ReleasesStatement db
      (DB.Printf { db0 with events := db0.events ++ [Event.prepare q] } line) := by
  refine ⟨by simp [DB.Printf, ho], Or.inl ⟨by simp [DB.Printf, hn], ?_⟩⟩
  intro h
  simp [DB.Printf, he, closeCount]

theorem releases_of_body (db db0 out : DB) (q : String) (s : Statement)
    (he : db0.events = db.events) (ho : db0.openStmts = db.openStmts)
    (hn : db0.nextStmt = db.nextStmt)
    (hsame : SameStatements
      { db0 with
          events := db0.events ++ [Event.prepare q]
          openStmts := db0.nextStmt :: db0.openStmts
          nextStmt := db0.nextStmt + 1 } out) :
    ReleasesStatement db (Stmt.Close ⟨db0.nextStmt, s⟩ out) := by
  obtain ⟨h1, h2, h3⟩ := hsame
  simp only at h1 h2 h3
  refine ⟨by simp [Stmt.Close, h1, ho], Or.inr ⟨by simp [Stmt.Close, h2, hn], ?_, ?_⟩⟩
  · have := h3 db.nextStmt
    simp only [Stmt.Close, closeCount_append, this, he, hn]
    simp [closeCount]
  · intro h hne
    have := h3 h
    simp only [Stmt.Close, closeCount_append, this, he, hn]
    simp [closeCount, hne]

theorem parse_insert_one :
    parseStatement "INSERT INTO item(item_name, item_price) VALUES (?, ?)"
      = some (Statement.insertRows 1) := by
  decide

theorem parse_selectPrice :
    parseStatement "select item_price from item where item_name = ?"
      = some (Statement.select priceLookup) := by
  decide

theorem parse_selectItemsByPrice :
    parseStatement
        "select item_name, item_price from item where item_price >= ? && item_price <= ?;"
      = some (Statement.select rangeScan) := by
  decide

theorem insert_of_fault (db : DB) (f : Faults) (p : item) (m : String)
    (hp : f.prepare = some m) :
    insert db f p
      = (DB.Printf { db with events := db.events ++
            [Event.prepare "INSERT INTO item(item_name, item_price) VALUES (?, ?)"] }
          ("Error " ++ m ++ " when preparing SQL statement"), some (.driver m)) := by
  simp [insert, hp, prepare_fault, SqlError.Error]

theorem insert_of_prepared (db : DB) (f : Faults) (p : item) (hp : f.prepare = none) :
    insert db f p
      = (Stmt.Close ⟨db.nextStmt, Statement.insertRows 1⟩
          (insert.body ⟨db.nextStmt, Statement.insertRows 1⟩
            { db with
                events := db.events ++
                  [Event.prepare "INSERT INTO item(item_name, item_price) VALUES (?, ?)"]
                openStmts := db.nextStmt :: db.openStmts
                nextStmt := db.nextStmt + 1 } f p).1,
         (insert.body ⟨db.nextStmt, Statement.insertRows 1⟩
            { db with
                events := db.events ++
                  [Event.prepare "INSERT INTO item(item_name, item_price) VALUES (?, ?)"]
                openStmts := db.nextStmt :: db.openStmts
                nextStmt := db.nextStmt + 1 } f p).2) := by
  simp [insert, hp, prepare_ok _ _ _ parse_insert_one]

theorem multipleInsert_of_fault (db : DB) (f : Faults) (items : List item) (m : String)
    (hp : f.prepare = some m) :
    multipleInsert db f items
      = (DB.Printf { (db.Printf ("query is " ++ multipleInsert.query items)) with
            events := db.events ++ [Event.prepare (multipleInsert.query items)] }
          ("Error " ++ m ++ " when preparing SQL statement"), some (.driver m)) := by
  simp [multipleInsert, hp, prepare_fault, SqlError.Error, DB.Printf]

theorem multipleInsert_of_reject (db : DB) (f : Faults) (items : List item)
    (hp : f.prepare = none) (hq : parseStatement (multipleInsert.query items) = none) :
    multipleInsert db f items
      = (DB.Printf { (db.Printf ("query is " ++ multipleInsert.query items)) with
            events := db.events ++ [Event.prepare (multipleInsert.query items)] }
          ("Error " ++ rejectedStatement.Error ++ " when preparing SQL statement"),
          some rejectedStatement) := by
  simp [multipleInsert, hp, prepare_reject _ _ hq, DB.Printf]

theorem multipleInsert_of_prepared (db : DB) (f : Faults) (items : List item) (s : Statement)
    (hp : f.prepare = none) (hq : parseStatement (multipleInsert.query items) = some s) :
    multipleInsert db f items
      = (Stmt.Close ⟨db.nextStmt, s⟩
          (multipleInsert.body ⟨db.nextStmt, s⟩
            { (db.Printf ("query is " ++ multipleInsert.query items)) with
                events := db.events ++ [Event.prepare (multipleInsert.query items)]
                openStmts := db.nextStmt :: db.openStmts
                nextStmt := db.nextStmt + 1 } f (multipleInsert.build items).2).1,
         (multipleInsert.body ⟨db.nextStmt, s⟩
            { (db.Printf ("query is " ++ multipleInsert.query items)) with
                events := db.events ++ [Event.prepare (multipleInsert.query items)]
                openStmts := db.nextStmt :: db.openStmts
                nextStmt := db.nextStmt + 1 } f (multipleInsert.build items).2).2) := by
  simp [multipleInsert, hp, prepare_ok _ _ _ hq, DB.Printf]

theorem selectPrice_of_fault (db : DB) (f : Faults) (name m : String)
    (hp : f.prepare = some m) :
    selectPrice db f name
      = (DB.Printf { (db.Printf "Getting item price") with
            events := db.events ++ [Event.prepare "select item_price from item where item_name = ?"] }
          ("Error " ++ m ++ " when preparing SQL statement"), 0, some (.driver m)) := by
  simp [selectPrice, hp, prepare_fault, SqlError.Error, DB.Printf]

theorem selectPrice_of_prepared (db : DB) (f : Faults) (name : String)
    (hp : f.prepare = none) :
    selectPrice db f name
      = (Stmt.Close ⟨db.nextStmt, (Statement.select priceLookup)⟩
          (selectPrice.body ⟨db.nextStmt, (Statement.select priceLookup)⟩
            { (db.Printf "Getting item price") with
                events := db.events ++ [Event.prepare "select item_price from item where item_name = ?"]
                openStmts := db.nextStmt :: db.openStmts
                nextStmt := db.nextStmt + 1 } f name).1,
         (selectPrice.body ⟨db.nextStmt, (Statement.select priceLookup)⟩
            { (db.Printf "Getting item price") with
                events := db.events ++ [Event.prepare "select item_price from item where item_name = ?"]
                openStmts := db.nextStmt :: db.openStmts
                nextStmt := db.nextStmt + 1 } f name).2) := by
  simp [selectPrice, hp, prepare_ok _ _ _ parse_selectPrice, DB.Printf]

theorem selectItemsByPrice_of_fault (db : DB) (f : Faults) (lo hi : Int) (m : String)
    (hp : f.prepare = some m) :
    selectItemsByPrice db f lo hi
      = (DB.Printf { (db.Printf "Getting items by price") with
            events := db.events ++ [Event.prepare
              "select item_name, item_price from item where item_price >= ? && item_price <= ?;"] }
          ("Error " ++ m ++ " when preparing SQL statement"), [], some (.driver m)) := by
  simp [selectItemsByPrice, hp, prepare_fault, SqlError.Error, DB.Printf]

theorem selectItemsByPrice_of_prepared (db : DB) (f : Faults) (lo hi : Int)
    (hp : f.prepare = none) :
    selectItemsByPrice db f lo hi
      = (Stmt.Close ⟨db.nextStmt, (Statement.select rangeScan)⟩
          (selectItemsByPrice.body ⟨db.nextStmt, (Statement.select rangeScan)⟩
            { (db.Printf "Getting items by price") with
                events := db.events ++ [Event.prepare
              "select item_name, item_price from item where item_price >= ? && item_price <= ?;"]
                openStmts := db.nextStmt :: db.openStmts
                nextStmt := db.nextStmt + 1 } f lo hi).1,
         (selectItemsByPrice.body ⟨db.nextStmt, (Statement.select rangeScan)⟩
            { (db.Printf "Getting items by price") with
                events := db.events ++ [Event.prepare
              "select item_name, item_price from item where item_price >= ? && item_price <= ?;"]
                openStmts := db.nextStmt :: db.openStmts
                nextStmt := db.nextStmt + 1 } f lo hi).2) := by
  simp [selectItemsByPrice, hp, prepare_ok _ _ _ parse_selectItemsByPrice, DB.Printf]

/-! ## C1: shape of the batch statement and of its parameter list -/

/-- C1. For every non-empty list of `N` items, the statement `multipleInsert` prepares is the
fixed head `INSERT INTO item(item_name, item_price) VALUES ` followed by `N` copies of
`(?, ?)` joined by `,`; the parameter list it executes with has length `2N`, with element
`2i` the name and element `2i+1` the price of the `i`-th item; the number of `?` in the
statement equals the number of parameters.  The last conjunct ties both to the calls the
function issues: the statement is the one it prepares and, when the prepare is not faulted,
the parameter list is the one it executes with. -/
theorem multipleInsert_statement_and_params (db : DB) (f : Faults) (items : List item)
    (hne : items ≠ []) :
    multipleInsert.query items
        = "INSERT INTO item(item_name, item_price) VALUES " ++
            String.intercalate "," (List.replicate items.length "(?, ?)")
    ∧ (multipleInsert.build items).2.length = 2 * items.length
    ∧ (∀ i v, items[i]? = some v →
        (multipleInsert.build items).2[2 * i]? = some (Value.text v.name) ∧
        (multipleInsert.build items).2[2 * i + 1]? = some (Value.int v.price))
    ∧ (multipleInsert.query items).data.count '?' = (multipleInsert.build items).2.length
    ∧ (multipleInsert db f items).1.events
        = db.events ++ Event.prepare (multipleInsert.query items) ::
            (match f.prepare with
              | some _ => []
              | none => [Event.stmtExec db.nextStmt (multipleInsert.build items).2,
                          Event.stmtClose db.nextStmt]) := by
  refine ⟨?_, ?_, ?_, ?_, ?_⟩
  · simp [multipleInsert.query, build_eq]
  · simp [build_eq, flatParams_length]
  · intro i v h
    simpa [build_eq] using flatParams_get items i v h
  · simp only [query_eq, insertStatement_count, build_eq, flatParams_length]
  · obtain ⟨n, hn⟩ : ∃ n, items.length = n + 1 := by
      cases items with
      | nil => exact absurd rfl hne
      | cons a as => exact ⟨as.length, rfl⟩
    have hparse : parseStatement (multipleInsert.query items)
        = some (Statement.insertRows (n + 1)) := by
      rw [query_eq, hn]
      exact parse_insertStatement n
    cases hp : f.prepare with
    | some m => simp [multipleInsert_of_fault db f items m hp, DB.Printf]
    | none =>
      rw [multipleInsert_of_prepared db f items _ hp hparse]
      simp [Stmt.Close, (multipleInsert_body_events _ _ f _).1]

/-- Witness of C1 on the two-item batch of `main`. -/
theorem multipleInsert_statement_and_params_witness :
    ([⟨"Galaxy", 990⟩, ⟨"iPad", 500⟩] : List item) ≠ []
    ∧ multipleInsert.query [⟨"Galaxy", 990⟩, ⟨"iPad", 500⟩]
        = "INSERT INTO item(item_name, item_price) VALUES " ++
            String.intercalate "," (List.replicate 2 "(?, ?)")
    ∧ (multipleInsert.build [⟨"Galaxy", 990⟩, ⟨"iPad", 500⟩]).2.length = 2 * 2
    ∧ (multipleInsert.query [⟨"Galaxy", 990⟩, ⟨"iPad", 500⟩]).data.count '?'
        = (multipleInsert.build [⟨"Galaxy", 990⟩, ⟨"iPad", 500⟩]).2.length :=
  have h := multipleInsert_statement_and_params emptyDB noFaults
    [⟨"Galaxy", 990⟩, ⟨"iPad", 500⟩] (by simp)
  ⟨by simp, h.1, h.2.1, h.2.2.2.1⟩

/-! ## C2: the empty batch -/

/-- C2, counterexample. On the empty list (fresh store, no step faulted) `multipleInsert`
does issue a prepare, and the statement it hands to the store is the bare head ending in
`VALUES ` with no placeholder group; the error it returns is the one the store raised for
that statement. -/
theorem multipleInsert_empty_reaches_store :
    (multipleInsert emptyDB noFaults []).1.events
        = [Event.prepare "INSERT INTO item(item_name, item_price) VALUES "]
    ∧ (multipleInsert emptyDB noFaults []).1.events ≠ emptyDB.events
    ∧ (multipleInsert emptyDB noFaults []).2 = some rejectedStatement := by
  decide

/-- C2, amended. For the empty list `multipleInsert` performs no validation of its own: in
every store and under every fault assignment it issues exactly one prepare, of the statement
`INSERT INTO item(item_name, item_price) VALUES ` without any placeholder group, and nothing
else; it returns the error of that prepare (the injected failure, or else the store's syntax
error), inserts no row and leaves no statement open. -/
theorem multipleInsert_empty_unvalidated (db : DB) (f : Faults) :
    (multipleInsert db f []).1.events
        = db.events ++ [Event.prepare "INSERT INTO item(item_name, item_price) VALUES "]
    ∧ (multipleInsert db f []).2
        = some (match f.prepare with
                | some m => SqlError.driver m
                | none => rejectedStatement)
    ∧ (multipleInsert db f []).1.table = db.table
    ∧ (multipleInsert db f []).1.openStmts = db.openStmts := by
  have hq : multipleInsert.query [] = "INSERT INTO item(item_name, item_price) VALUES " := by
    decide
  cases hp : f.prepare with
  | some m =>
    rw [multipleInsert_of_fault db f [] m hp]
    simp [DB.Printf, hq]
  | none =>
    have hrej : parseStatement (multipleInsert.query []) = none := by decide
    rw [multipleInsert_of_reject db f [] hp hrej]
    simp [DB.Printf, hq]

/-! ## C9: prepared statements are released on every path -/

/-- C9. For each of `insert`, `multipleInsert`, `selectPrice` and `selectItemsByPrice`, in
every store, for every input and every fault assignment (every outcome of the prepare,
execute, query, scan and result-reading steps): the set of open statement handles after the
call equals the set before it; a call whose prepare failed prepared nothing and closed
nothing; a call that prepared a statement closed exactly that statement exactly once. -/
theorem statements_released (db : DB) (f : Faults) (p : item) (items : List item)
    (itemName : String) (minPrice maxPrice : Int) :
    ReleasesStatement db (insert db f p).1
    ∧ ReleasesStatement db (multipleInsert db f items).1
    ∧ ReleasesStatement db (selectPrice db f itemName).1
    ∧ ReleasesStatement db (selectItemsByPrice db f minPrice maxPrice).1 := by
  refine ⟨?_, ?_, ?_, ?_⟩
  · cases hp : f.prepare with
    | some m =>
      rw [insert_of_fault db f p m hp]
      exact releases_of_failed_prepare db db _ _ rfl rfl rfl
    | none =>
      rw [insert_of_prepared db f p hp]
      exact releases_of_body db db _ _ _ rfl rfl rfl (insert_body_same _ _ f p)
  · cases hp : f.prepare with
    | some m =>
      rw [multipleInsert_of_fault db f items m hp]
      exact releases_of_failed_prepare db (db.Printf _) _ _ rfl rfl rfl
    | none =>
      cases hq : parseStatement (multipleInsert.query items) with
      | none =>
        rw [multipleInsert_of_reject db f items hp hq]
        exact releases_of_failed_prepare db (db.Printf _) _ _ rfl rfl rfl
      | some s =>
        rw [multipleInsert_of_prepared db f items s hp hq]
        exact releases_of_body db (db.Printf _) _ _ _ rfl rfl rfl
          (multipleInsert_body_same _ _ f _)
  · cases hp : f.prepare with
    | some m =>
      rw [selectPrice_of_fault db f itemName m hp]
      exact releases_of_failed_prepare db (db.Printf _) _ _ rfl rfl rfl
    | none =>
      rw [selectPrice_of_prepared db f itemName hp]
      exact releases_of_body db (db.Printf _) _ _ _ rfl rfl rfl
        (selectPrice_body_same _ _ f itemName)
  · cases hp : f.prepare with
    | some m =>
      rw [selectItemsByPrice_of_fault db f minPrice maxPrice m hp]
      exact releases_of_failed_prepare db (db.Printf _) _ _ rfl rfl rfl
    | none =>
      rw [selectItemsByPrice_of_prepared db f minPrice maxPrice hp]
      exact releases_of_body db (db.Printf _) _ _ _ rfl rfl rfl
        (selectItemsByPrice_body_same _ _ f minPrice maxPrice)

/-! ## Lemmas on the read path -/

theorem loop_of_rows (f : Faults) (hs : ∀ i, f.scan i = none) (rs : List Row) (i : Nat)
    (acc : List item) :
    selectItemsByPrice.loop f i (rs.map (fun r => [Value.text r.name, Value.int r.price])) acc
      = .ok (acc ++ rs.map (fun r => (⟨r.name, r.price⟩ : item))) := by
  induction rs generalizing i acc with
  | nil => simp [selectItemsByPrice.loop]
  | cons r rs ih =>
    simp [selectItemsByPrice.loop, scanItem, hs, scanString, scanInt, ih]

theorem loop_error_of_fail (f : Faults) (cells : List (List Value)) (i : Nat) (acc : List item)
    (h : ∃ j cols e, cells[j]? = some cols ∧ scanItem (f.scan (i + j)) cols = .error e) :
    ∃ j cols e, cells[j]? = some cols ∧ scanItem (f.scan (i + j)) cols = .error e ∧
      selectItemsByPrice.loop f i cells acc = .error e := by
  induction cells generalizing i acc with
  | nil =>
    obtain ⟨j, cols, e, hj, _⟩ := h
    simp at hj
  | cons c cs ih =>
    rcases hc : scanItem (f.scan i) c with e | prd
    · exact ⟨0, c, e, by simp, by simpa using hc, by simp [selectItemsByPrice.loop, hc]⟩
    · obtain ⟨j, cols, e, hj, he⟩ := h
      cases j with
      | zero =>
        simp at hj
        subst hj
        simp [hc] at he
      | succ k =>
        have hk : ∃ j cols e, cs[j]? = some cols ∧
            scanItem (f.scan (i + 1 + j)) cols = .error e :=
          ⟨k, cols, e, by simpa using hj, by
            have : i + 1 + k = i + (k + 1) := by omega
            rw [this]; exact he⟩
        obtain ⟨j2, cols2, e2, h1, h2, h3⟩ := ih (i + 1) (acc ++ [prd]) hk
        refine ⟨j2 + 1, cols2, e2, by simpa using h1, ?_, ?_⟩
        · have : i + (j2 + 1) = i + 1 + j2 := by omega
          rw [this]; exact h2
        · simp [selectItemsByPrice.loop, hc, h3]

theorem loop_error_is_scan (f : Faults) (cells : List (List Value)) (i : Nat) (acc : List item)
    (e : SqlError) (h : selectItemsByPrice.loop f i cells acc = .error e) :
    ∃ j cols, cells[j]? = some cols ∧ scanItem (f.scan (i + j)) cols = .error e := by
  induction cells generalizing i acc with
  | nil => simp [selectItemsByPrice.loop] at h
  | cons c cs ih =>
    rcases hc : scanItem (f.scan i) c with e1 | prd
    · simp [selectItemsByPrice.loop, hc] at h
      subst h
      exact ⟨0, c, by simp, by simpa using hc⟩
    · simp [selectItemsByPrice.loop, hc] at h
      obtain ⟨j, cols, h1, h2⟩ := ih (i + 1) (acc ++ [prd]) h
      refine ⟨j + 1, cols, by simpa using h1, ?_⟩
      have : i + (j + 1) = i + 1 + j := by omega
      rw [this]; exact h2

theorem collect_of_fail (f : Faults) (rows : Rows)
    (hfail : (∃ i cols e, rows.pending[i]? = some cols ∧ scanItem (f.scan i) cols = .error e)
      ∨ rows.err ≠ none) :
    (selectItemsByPrice.collect f rows).1 = [] ∧
    ∃ e, (selectItemsByPrice.collect f rows).2 = some e ∧
      ((∃ i cols, rows.pending[i]? = some cols ∧ scanItem (f.scan i) cols = .error e)
        ∨ rows.err = some e) := by
  unfold selectItemsByPrice.collect
  rcases hl : selectItemsByPrice.loop f 0 rows.pending [] with e | items
  · obtain ⟨j, cols, h1, h2⟩ := loop_error_is_scan f rows.pending 0 [] e hl
    simp only [Nat.zero_add] at h2
    exact ⟨rfl, e, rfl, Or.inl ⟨j, cols, h1, h2⟩⟩
  · rcases hfail with hscan | herr
    · obtain ⟨i, cols, e, h1, h2⟩ := hscan
      obtain ⟨j, cols2, e2, _, _, h5⟩ :=
        loop_error_of_fail f rows.pending 0 [] ⟨i, cols, e, h1, by simpa using h2⟩
      rw [hl] at h5
      cases h5
    · rcases he : rows.err with _ | e
      · exact absurd he herr
      · exact ⟨rfl, e, rfl, Or.inr rfl⟩

theorem selectRows_range (coll : Collation) (table : List Row) (lo hi : Int) :
    selectRows coll [(Column.itemPrice, Op.ge), (Column.itemPrice, Op.le)]
        [Value.int lo, Value.int hi] table
      = some (table.filter (fun r => lo ≤ r.price ∧ r.price ≤ hi)) := by
  induction table with
  | nil => rfl
  | cons r rs ih =>
    by_cases h1 : lo ≤ r.price <;> by_cases h2 : r.price ≤ hi <;>
      simp [selectRows, rowMatches, compareCell, Column.value, Op.holds, h1, h2,
        List.filter_cons, ih]

theorem selectRows_price (coll : Collation) (table : List Row) (name : String) :
    selectRows coll [(Column.itemName, Op.eq)] [Value.text name] table
      = some (table.filter (fun r => coll.eq r.name name)) := by
  induction table with
  | nil => rfl
  | cons r rs ih =>
    rcases h1 : coll.eq r.name name <;>
      simp [selectRows, rowMatches, compareCell, Column.value, h1, List.filter_cons, ih]

theorem evalQuery_range (coll : Collation) (table : List Row) (lo hi : Int) :
    evalQuery coll (Statement.select rangeScan) table [Value.int lo, Value.int hi]
      = .ok (rangeCells table lo hi) := by
  simp only [evalQuery, evalSelect, rangeScan, selectRows_range]
  simp [rangeCells, Column.value]

theorem evalQuery_price (coll : Collation) (table : List Row) (name : String) :
    evalQuery coll (Statement.select priceLookup) table [Value.text name]
      = .ok (priceCells coll table name) := by
  simp only [evalQuery, evalSelect, priceLookup, selectRows_price]
  simp [priceCells, Column.value]

theorem query_range (h : Nat) (db1 : DB) (f : Faults) (lo hi : Int) (hq : f.query = none) :
    (Stmt.mk h (Statement.select rangeScan)).QueryContext db1 f [Value.int lo, Value.int hi]
      = ({ db1 with events := db1.events ++ [Event.stmtQuery h [Value.int lo, Value.int hi]] },
          .ok (deliver f.iter h (rangeCells db1.table lo hi))) := by
  simp [Stmt.QueryContext, hq, evalQuery_range]

theorem query_price (h : Nat) (db1 : DB) (f : Faults) (name : String) (hq : f.query = none) :
    (Stmt.mk h (Statement.select priceLookup)).QueryContext db1 f [Value.text name]
      = ({ db1 with events := db1.events ++ [Event.stmtQuery h [Value.text name]] },
          .ok (deliver f.iter h (priceCells db1.collation db1.table name))) := by
  simp [Stmt.QueryContext, hq, evalQuery_price]

theorem selectItemsByPrice_result (db : DB) (f : Faults) (lo hi : Int)
    (hp : f.prepare = none) (hq : f.query = none) :
    (selectItemsByPrice db f lo hi).2
      = selectItemsByPrice.collect f (deliver f.iter db.nextStmt (rangeCells db.table lo hi)) := by
  rw [selectItemsByPrice_of_prepared db f lo hi hp]
  simp [selectItemsByPrice.body, query_range _ _ f lo hi hq, DB.Printf]

theorem selectPrice_result (db : DB) (f : Faults) (name : String)
    (hp : f.prepare = none) (hq : f.query = none) (hi : f.iter = none) :
    (selectPrice db f name).2
      = (match priceCells db.collation db.table name with
         | [] => (0, some SqlError.errNoRows)
         | cols :: _ =>
           match scanPrice (f.scan 0) cols with
           | .error err => (0, some err)
           | .ok price => (price, none)) := by
  rw [selectPrice_of_prepared db f name hp]
  simp only [selectPrice.body, Stmt.QueryRowScan, query_price _ _ f name hq, hi, deliver,
    DB.Printf]
  rcases hc : priceCells db.collation db.table name with _ | ⟨c, cs⟩
  · simp
  · rcases hs : scanPrice (f.scan 0) c with e | v <;> simp [hs]

/-! ## Lemmas on the write path -/

theorem insert_body_ok (h : Nat) (db1 : DB) (f : Faults) (p : item)
    (he : f.exec = none) (hr : f.rowsAffected = none) (hl : f.lastInsertId = none) :
    insert.body ⟨h, Statement.insertRows 1⟩ db1 f p
      = ({ db1 with
            events := db1.events ++ [Event.stmtExec h [Value.text p.name, Value.int p.price]]
            table := db1.table ++ [⟨db1.nextId, p.name, p.price⟩]
            nextId := db1.nextId + 1
            log := db1.log ++ [toString (1 : Int) ++ " items created ",
              "Item with ID " ++ toString (db1.nextId : Int) ++ " created"] }, none) := by
  simp [insert.body, Stmt.ExecContext, he, hr, hl, bindRows, newRows, readResult, DB.Printf]

theorem insert_success (db : DB) (f : Faults) (p : item) (hok : (insert db f p).2 = none) :
    f.prepare = none ∧ f.exec = none ∧ f.rowsAffected = none ∧ f.lastInsertId = none := by
  rcases hp : f.prepare with _ | m
  · rw [insert_of_prepared db f p hp] at hok
    rcases he : f.exec with _ | m
    · rcases hr : f.rowsAffected with _ | m
      · rcases hl : f.lastInsertId with _ | m
        · exact ⟨rfl, rfl, rfl, rfl⟩
        · simp [insert.body, Stmt.ExecContext, he, hr, hl, bindRows, readResult] at hok
      · simp [insert.body, Stmt.ExecContext, he, hr, bindRows, readResult] at hok
    · simp [insert.body, Stmt.ExecContext, he] at hok
  · rw [insert_of_fault db f p m hp] at hok
    simp at hok

theorem multipleInsert_body_ok (h : Nat) (db1 : DB) (f : Faults) (items : List item)
    (he : f.exec = none) (hr : f.rowsAffected = none) :
    multipleInsert.body ⟨h, Statement.insertRows items.length⟩ db1 f (flatParams items)
      = ({ db1 with
            events := db1.events ++ [Event.stmtExec h (flatParams items)]
            table := db1.table ++ newRows db1.nextId (pairsOf items)
            nextId := db1.nextId + items.length
            log := db1.log ++
              [toString (items.length : Int) ++ " items created simultaneously"] }, none) := by
  simp [multipleInsert.body, exec_insert_ok h db1 f items he, hr, readResult, DB.Printf]

theorem multipleInsert_success (db : DB) (f : Faults) (items : List item)
    (hok : (multipleInsert db f items).2 = none) :
    f.prepare = none ∧ f.exec = none ∧ f.rowsAffected = none ∧
      parseStatement (multipleInsert.query items) ≠ none := by
  rcases hp : f.prepare with _ | m
  · rcases hq : parseStatement (multipleInsert.query items) with _ | s
    · rw [multipleInsert_of_reject db f items hp hq] at hok
      simp at hok
    · rw [multipleInsert_of_prepared db f items s hp hq] at hok
      rcases he : f.exec with _ | m
      · rcases hr : f.rowsAffected with _ | m
        · exact ⟨rfl, rfl, rfl, by simp⟩
        · exfalso
          revert hok
          simp only [multipleInsert.body, Stmt.ExecContext, he, hr, readResult]
          cases s with
          | insertRows n =>
            by_cases hlen : (multipleInsert.build items).2.length = 2 * n
            · rcases hb : bindRows (multipleInsert.build items).2 with _ | v <;>
                simp [hlen, hb]
            · simp [hlen]
          | select sel => simp
      · simp [multipleInsert.body, Stmt.ExecContext, he] at hok
  · rw [multipleInsert_of_fault db f items m hp] at hok
    simp at hok

/-! ## C3: inclusive range scan -/

/-- C3. For every store content and every pair of integers `minPrice`, `maxPrice`, when no
prepare, query, iteration or scan step fails, `selectItemsByPrice` returns no error and
exactly the (name, price) rows of the store with `minPrice ≤ price ≤ maxPrice`, both bounds
included (in the order the store holds them); when no row qualifies, in particular when
`maxPrice < minPrice`, it returns the empty sequence and no error.  On the store holding
(iphone, 950), (Galaxy, 990), (iPad, 500), the range 900..1000 yields exactly iphone and
Galaxy. -/
theorem selectItemsByPrice_exact (db : DB) (f : Faults) (minPrice maxPrice : Int)
    (hp : f.prepare = none) (hq : f.query = none) (hi : f.iter = none)
    (hs : ∀ i, f.scan i = none) :
    (selectItemsByPrice db f minPrice maxPrice).2
        = ((db.table.filter (fun r => minPrice ≤ r.price ∧ r.price ≤ maxPrice)).map
            (fun r => (⟨r.name, r.price⟩ : item)), none)
    ∧ (∀ it : item, it ∈ (selectItemsByPrice db f minPrice maxPrice).2.1 ↔
        (∃ r ∈ db.table, r.name = it.name ∧ r.price = it.price) ∧
          minPrice ≤ it.price ∧ it.price ≤ maxPrice)
    ∧ ((∀ r ∈ db.table, ¬ (minPrice ≤ r.price ∧ r.price ≤ maxPrice)) →
        (selectItemsByPrice db f minPrice maxPrice).2 = ([], none))
    ∧ (maxPrice < minPrice → (selectItemsByPrice db f minPrice maxPrice).2 = ([], none))
    ∧ (selectItemsByPrice demoDB f 900 1000).2
        = ([⟨"iphone", 950⟩, ⟨"Galaxy", 990⟩], none) := by
  have key : ∀ (d : DB) (lo up : Int), (selectItemsByPrice d f lo up).2
      = ((d.table.filter (fun r => lo ≤ r.price ∧ r.price ≤ up)).map
          (fun r => (⟨r.name, r.price⟩ : item)), none) := by
    intro d lo up
    rw [selectItemsByPrice_result d f lo up hp hq]
    simp [selectItemsByPrice.collect, hi, deliver, rangeCells, loop_of_rows f hs]
  refine ⟨key db minPrice maxPrice, ?_, ?_, ?_, ?_⟩
  · intro it
    rw [key db minPrice maxPrice]
    simp only [List.mem_map, List.mem_filter, decide_eq_true_eq]
    constructor
    · rintro ⟨r, ⟨hr, hlo, hup⟩, rfl⟩
      exact ⟨⟨r, hr, rfl, rfl⟩, hlo, hup⟩
    · rintro ⟨⟨r, hr, hn, hpr⟩, hlo, hup⟩
      refine ⟨r, ⟨hr, by rw [hpr]; exact hlo, by rw [hpr]; exact hup⟩, ?_⟩
      cases it
      simp_all
  · intro hnone
    rw [key db minPrice maxPrice]
    have : db.table.filter (fun r => minPrice ≤ r.price ∧ r.price ≤ maxPrice) = [] := by
      rw [List.filter_eq_nil_iff]
      intro r hr
      simpa using hnone r hr
    rw [this]
    rfl
  · intro hlt
    rw [key db minPrice maxPrice]
    have : db.table.filter (fun r => minPrice ≤ r.price ∧ r.price ≤ maxPrice) = [] := by
      rw [List.filter_eq_nil_iff]
      intro r _
      simp only [decide_eq_true_eq]
      omega
    rw [this]
    rfl
  · rw [key demoDB 900 1000]
    decide

/-- Witness of C3 on the store of `main`. -/
theorem selectItemsByPrice_exact_witness :
    (selectItemsByPrice demoDB noFaults 900 1000).2
        = ((demoDB.table.filter (fun r => (900 : Int) ≤ r.price ∧ r.price ≤ 1000)).map
            (fun r => (⟨r.name, r.price⟩ : item)), none)
    ∧ (selectItemsByPrice demoDB noFaults 900 1000).2
        = ([⟨"iphone", 950⟩, ⟨"Galaxy", 990⟩], none) :=
  have h := selectItemsByPrice_exact demoDB noFaults 900 1000 rfl rfl rfl (fun _ => rfl)
  ⟨h.1, h.2.2.2.2⟩

/-! ## C8: a failing scan or iteration discards the partial result -/

/-- C8. Let `rows` be the result set the query step of `selectItemsByPrice` delivers (prepare
and query not faulted).  Whenever scanning some delivered row fails, or iteration ends with a
row-iteration error, `selectItemsByPrice` returns the empty sequence together with an error,
and that error is the error of a failing scan or the row-iteration error: no row scanned
before the failure reaches the caller. -/
theorem selectItemsByPrice_failure_returns_empty (db : DB) (f : Faults) (minPrice maxPrice : Int)
    (hp : f.prepare = none) (hq : f.query = none)
    (hfail :
      (∃ i cols e,
        (deliver f.iter db.nextStmt (rangeCells db.table minPrice maxPrice)).pending[i]?
          = some cols ∧ scanItem (f.scan i) cols = .error e)
      ∨ (deliver f.iter db.nextStmt (rangeCells db.table minPrice maxPrice)).err ≠ none) :
    (selectItemsByPrice db f minPrice maxPrice).2.1 = [] ∧
    ∃ e, (selectItemsByPrice db f minPrice maxPrice).2.2 = some e ∧
      ((∃ i cols,
          (deliver f.iter db.nextStmt (rangeCells db.table minPrice maxPrice)).pending[i]?
            = some cols ∧ scanItem (f.scan i) cols = .error e)
        ∨ (deliver f.iter db.nextStmt (rangeCells db.table minPrice maxPrice)).err = some e) := by
  rw [selectItemsByPrice_result db f minPrice maxPrice hp hq]
  exact collect_of_fail f _ hfail

/-- Witness of C8: on the store of `main`, the first row (iphone) scans, the second (Galaxy)
fails, and nothing is returned but the error. -/
theorem selectItemsByPrice_failure_returns_empty_witness :
    (selectItemsByPrice demoDB secondScanFails 900 1000).2.1 = [] ∧
    ∃ e, (selectItemsByPrice demoDB secondScanFails 900 1000).2.2 = some e ∧
      ((∃ i cols,
          (deliver secondScanFails.iter demoDB.nextStmt (rangeCells demoDB.table 900 1000)).pending[i]?
            = some cols ∧ scanItem (secondScanFails.scan i) cols = .error e)
        ∨ (deliver secondScanFails.iter demoDB.nextStmt (rangeCells demoDB.table 900 1000)).err
            = some e) :=
  selectItemsByPrice_failure_returns_empty demoDB secondScanFails 900 1000 rfl rfl
    (Or.inl ⟨1, [Value.text "Galaxy", Value.int 990], SqlError.driver "scan failed",
      by decide, by rfl⟩)

/-! ## C4: absence is reported as `sql.ErrNoRows` -/

theorem priceCells_of_absent (coll : Collation) (table : List Row) (name : String)
    (h : ∀ r ∈ table, coll.eq r.name name = false) : priceCells coll table name = [] := by
  unfold priceCells
  rw [List.map_eq_nil_iff, List.filter_eq_nil_iff]
  intro r hr
  simp [h r hr]

theorem priceCells_of_present (coll : Collation) (table : List Row) (name : String)
    (h : ∃ r ∈ table, coll.eq r.name name = true) :
    ∃ v rest, priceCells coll table name = [Value.int v] :: rest := by
  unfold priceCells
  obtain ⟨r, hr, hn⟩ := h
  rcases hf : table.filter (fun r => coll.eq r.name name) with _ | ⟨a, as⟩
  · rw [List.filter_eq_nil_iff] at hf
    exact absurd hn (hf r hr)
  · exact ⟨a.price, as.map (fun r => [Value.int r.price]), by rw [hf]; rfl⟩

theorem priceCells_shape (coll : Collation) (table : List Row) (name : String)
    (c : List Value) (h : c ∈ priceCells coll table name) : ∃ v, c = [Value.int v] := by
  unfold priceCells at h
  rw [List.mem_map] at h
  obtain ⟨r, _, hr⟩ := h
  exact ⟨r.price, hr.symm⟩

theorem selectPrice_of_query_fault (db : DB) (f : Faults) (name m : String)
    (hp : f.prepare = none) (hq : f.query = some m) :
    (selectPrice db f name).2 = (0, some (SqlError.driver m)) := by
  rw [selectPrice_of_prepared db f name hp]
  simp [selectPrice.body, Stmt.QueryRowScan, Stmt.QueryContext, hq]

theorem selectPrice_of_iter_fault (db : DB) (f : Faults) (name m : String) (n : Nat)
    (hp : f.prepare = none) (hq : f.query = none) (hi : f.iter = some (n, m)) :
    (selectPrice db f name).2.2 ≠ some SqlError.errNoRows := by
  rw [selectPrice_of_prepared db f name hp]
  simp only [selectPrice.body, Stmt.QueryRowScan, query_price _ _ f name hq, hi, deliver,
    DB.Printf]
  rcases hc : (priceCells db.collation db.table name).take n with _ | ⟨c, cs⟩
  · simp
  · have hmem : c ∈ priceCells db.collation db.table name :=
      List.mem_of_mem_take (by rw [hc]; exact List.mem_cons_self _ _)
    obtain ⟨v, hv⟩ := priceCells_shape _ _ _ c hmem
    subst hv
    rcases hs : f.scan 0 with _ | e <;> simp [scanPrice, hs, scanInt]

/-- C4. For every store content and every name that matches no row (under the comparison the
store applies to `item_name = ?`), `selectPrice`, its prepare, query and iteration not
failing, returns `sql.ErrNoRows`, hence never a value with a nil error.  That error differs
from every error `selectPrice` returns for a prepare failure and from every error it returns
for a scan failure, in any store and for any name: it hands the error of the failing step
back unchanged, and a failing step never reports the sentinel.  Indeed `selectPrice` returns
`sql.ErrNoRows` exactly when no step failed and no row matches, so a caller can branch on
absence versus failure. -/
theorem selectPrice_not_found (db : DB) (f : Faults) (itemName : String)
    (hp : f.prepare = none) (hq : f.query = none) (hi : f.iter = none)
    (hname : ∀ r ∈ db.table, db.collation.eq r.name itemName = false) :
    (selectPrice db f itemName).2 = (0, some SqlError.errNoRows)
    ∧ (∀ (db2 : DB) (g : Faults) (name2 m : String), g.prepare = some m →
        (selectPrice db2 g name2).2 = (0, some (SqlError.driver m)) ∧
        (selectPrice db2 g name2).2.2 ≠ some SqlError.errNoRows)
    ∧ (∀ (db2 : DB) (g : Faults) (name2 m : String),
        g.prepare = none → g.query = none → g.iter = none →
        (∃ r ∈ db2.table, db2.collation.eq r.name name2 = true) → g.scan 0 = some m →
        (selectPrice db2 g name2).2 = (0, some (SqlError.driver m)) ∧
        (selectPrice db2 g name2).2.2 ≠ some SqlError.errNoRows)
    ∧ (∀ (db2 : DB) (g : Faults) (name2 : String),
        (selectPrice db2 g name2).2.2 = some SqlError.errNoRows ↔
          (g.prepare = none ∧ g.query = none ∧ g.iter = none ∧
            ∀ r ∈ db2.table, db2.collation.eq r.name name2 = false)) := by
  have absent : ∀ (d : DB) (g : Faults) (nm : String), g.prepare = none → g.query = none →
      g.iter = none → (∀ r ∈ d.table, d.collation.eq r.name nm = false) →
      (selectPrice d g nm).2 = (0, some SqlError.errNoRows) := by
    intro d g nm h1 h2 h3 h4
    rw [selectPrice_result d g nm h1 h2 h3, priceCells_of_absent _ _ _ h4]
  refine ⟨absent db f itemName hp hq hi hname, ?_, ?_, ?_⟩
  · intro db2 g name2 m hg
    rw [selectPrice_of_fault db2 g name2 m hg]
    simp
  · intro db2 g name2 m hg1 hg2 hg3 hex hsc
    obtain ⟨v, rest, hc⟩ := priceCells_of_present _ _ _ hex
    rw [selectPrice_result db2 g name2 hg1 hg2 hg3, hc]
    simp [scanPrice, hsc]
  · intro db2 g name2
    constructor
    · intro hret
      rcases h1 : g.prepare with _ | m
      · rcases h2 : g.query with _ | m
        · rcases h3 : g.iter with _ | ⟨n, m⟩
          · refine ⟨rfl, rfl, rfl, ?_⟩
            intro r hr
            rcases hm : db2.collation.eq r.name name2 with _ | _
            · rfl
            · exfalso
              obtain ⟨v, rest, hc⟩ := priceCells_of_present _ _ _ ⟨r, hr, hm⟩
              rw [selectPrice_result db2 g name2 h1 h2 h3, hc] at hret
              rcases hs : g.scan 0 with _ | e <;> simp [scanPrice, hs, scanInt] at hret
          · exact absurd hret (selectPrice_of_iter_fault db2 g name2 m n h1 h2 h3)
        · rw [selectPrice_of_query_fault db2 g name2 m h1 h2] at hret
          simp at hret
      · rw [selectPrice_of_fault db2 g name2 m h1] at hret
        simp at hret
    · rintro ⟨h1, h2, h3, h4⟩
      rw [absent db2 g name2 h1 h2 h3 h4]

/-- Witness of C4: `nokia` matches no row of the store of `main`. -/
theorem selectPrice_not_found_witness :
    (∀ r ∈ demoDB.table, demoDB.collation.eq r.name "nokia" = false) ∧
    (selectPrice demoDB noFaults "nokia").2 = (0, some SqlError.errNoRows) :=
  ⟨by decide, (selectPrice_not_found demoDB noFaults "nokia" rfl rfl rfl (by decide)).1⟩

/-! ## C5: insert then look up -/

/-- C5, counterexample. On the store of `main` under the case-insensitive collation of a
stock server, the name `IPHONE` occurs in no existing row and the price 1 is non-negative;
the insert of (`IPHONE`, 1) succeeds and appends that row; yet `selectPrice` with `IPHONE`
returns 950, the price of the older row `iphone`, which the store holds equal to it. -/
theorem insert_then_selectPrice_other_case :
    (∀ r ∈ demoDB.table, r.name ≠ "IPHONE")
    ∧ (0 : Int) ≤ (item.mk "IPHONE" 1).price
    ∧ (insert demoDB noFaults ⟨"IPHONE", 1⟩).2 = none
    ∧ (insert demoDB noFaults ⟨"IPHONE", 1⟩).1.table = demoDB.table ++ [⟨4, "IPHONE", 1⟩]
    ∧ (selectPrice (insert demoDB noFaults ⟨"IPHONE", 1⟩).1 noFaults "IPHONE").2
        = (950, none)
    ∧ (selectPrice (insert demoDB noFaults ⟨"IPHONE", 1⟩).1 noFaults "IPHONE").2
        ≠ ((item.mk "IPHONE" 1).price, none) := by
  decide

/-- C5, amended. For every store content, every collation and every item whose name matches
no existing row under the comparison the store applies to `item_name = ?`, a successful
`insert` of the item (it returned nil) appends the row (name, price), the name bound to
`item_name` and the price to `item_price`; a following `selectPrice` with the item's name,
none of its own steps failing, returns exactly the item's price and no error.  This holds for
every price, the non-negative ones included. -/
theorem insert_then_selectPrice (db : DB) (f g : Faults) (p : item)
    (hins : (insert db f p).2 = none)
    (hname : ∀ r ∈ db.table, db.collation.eq r.name p.name = false)
    (hp : g.prepare = none) (hq : g.query = none) (hi : g.iter = none)
    (hs : g.scan 0 = none) :
    (insert db f p).1.table = db.table ++ [⟨db.nextId, p.name, p.price⟩]
    ∧ (selectPrice (insert db f p).1 g p.name).2 = (p.price, none) := by
  obtain ⟨h1, h2, h3, h4⟩ := insert_success db f p hins
  have ht : (insert db f p).1.table = db.table ++ [⟨db.nextId, p.name, p.price⟩] := by
    rw [insert_of_prepared db f p h1, insert_body_ok _ _ f p h2 h3 h4]
    simp [Stmt.Close]
  have hcoll : (insert db f p).1.collation = db.collation := by
    rw [insert_of_prepared db f p h1, insert_body_ok _ _ f p h2 h3 h4]
    simp [Stmt.Close]
  refine ⟨ht, ?_⟩
  rw [selectPrice_result _ g p.name hp hq hi, ht, hcoll]
  have hc : priceCells db.collation (db.table ++ [⟨db.nextId, p.name, p.price⟩]) p.name
      = [[Value.int p.price]] := by
    have h0 : db.table.filter (fun r => db.collation.eq r.name p.name) = [] := by
      rw [List.filter_eq_nil_iff]
      intro r hr
      simp [hname r hr]
    simp [priceCells, List.filter_append, h0, db.collation.refl]
  rw [hc]
  simp [scanPrice, hs, scanInt]

/-- Witness of C5, amended: inserting (nokia, 120) into the store of `main`. -/
theorem insert_then_selectPrice_witness :
    (insert demoDB noFaults ⟨"nokia", 120⟩).2 = none ∧
    (∀ r ∈ demoDB.table, demoDB.collation.eq r.name "nokia" = false) ∧
    (selectPrice (insert demoDB noFaults ⟨"nokia", 120⟩).1 noFaults "nokia").2
      = (120, none) :=
  ⟨by decide, by decide,
    (insert_then_selectPrice demoDB noFaults noFaults ⟨"nokia", 120⟩ (by decide) (by decide)
      rfl rfl rfl rfl).2⟩

/-! ## C6: one prepare, one execute, the count goes to the log -/

/-- C6, counterexample. A successful batch of one row and a successful batch of two rows hand
the very same value (nil) back to the caller, although one row was inserted by the first and
two by the second: the value returned carries no affected-row count. -/
theorem multipleInsert_returns_no_count :
    (multipleInsert emptyDB noFaults [⟨"Galaxy", 990⟩]).2 = none
    ∧ (multipleInsert emptyDB noFaults [⟨"Galaxy", 990⟩, ⟨"iPad", 500⟩]).2 = none
    ∧ (multipleInsert emptyDB noFaults [⟨"Galaxy", 990⟩]).1.table.length = 1
    ∧ (multipleInsert emptyDB noFaults [⟨"Galaxy", 990⟩, ⟨"iPad", 500⟩]).1.table.length = 2 := by
  decide

/-- C6, amended. For every non-empty list of `N` items, a successful `multipleInsert` (it
returned nil, which is all it returns) issued exactly one prepare and exactly one execute
against the store, followed by the close of the statement; the execute carried all `N` rows,
which were appended in input order; the affected-row count the store reported, `N`, was
written to the log line `N items created simultaneously`. -/
theorem multipleInsert_single_round_trip (db : DB) (f : Faults) (items : List item)
    (hne : items ≠ []) (hok : (multipleInsert db f items).2 = none) :
    (multipleInsert db f items).1.events
        = db.events ++ [Event.prepare (multipleInsert.query items),
            Event.stmtExec db.nextStmt (multipleInsert.build items).2,
            Event.stmtClose db.nextStmt]
    ∧ (multipleInsert db f items).1.table = db.table ++ newRows db.nextId (pairsOf items)
    ∧ (multipleInsert db f items).1.table.length = db.table.length + items.length
    ∧ (multipleInsert db f items).1.log
        = db.log ++ ["query is " ++ multipleInsert.query items,
            toString (items.length : Int) ++ " items created simultaneously"] := by
  obtain ⟨h1, h2, h3, _⟩ := multipleInsert_success db f items hok
  obtain ⟨n, hn⟩ : ∃ n, items.length = n + 1 := by
    cases items with
    | nil => exact absurd rfl hne
    | cons a as => exact ⟨as.length, rfl⟩
  have hparse : parseStatement (multipleInsert.query items)
      = some (Statement.insertRows items.length) := by
    rw [query_eq, hn]
    exact parse_insertStatement n
  have hb : (multipleInsert.build items).2 = flatParams items := by rw [build_eq]
  rw [multipleInsert_of_prepared db f items _ h1 hparse, hb,
    multipleInsert_body_ok _ _ f items h2 h3]
  simp [Stmt.Close, DB.Printf, newRows_length, pairsOf]

/-- Witness of C6 on the two-item batch of `main`. -/
theorem multipleInsert_single_round_trip_witness :
    (multipleInsert emptyDB noFaults [⟨"Galaxy", 990⟩, ⟨"iPad", 500⟩]).2 = none ∧
    (multipleInsert emptyDB noFaults [⟨"Galaxy", 990⟩, ⟨"iPad", 500⟩]).1.events
        = emptyDB.events ++
          [Event.prepare (multipleInsert.query [⟨"Galaxy", 990⟩, ⟨"iPad", 500⟩]),
            Event.stmtExec emptyDB.nextStmt
              (multipleInsert.build [⟨"Galaxy", 990⟩, ⟨"iPad", 500⟩]).2,
            Event.stmtClose emptyDB.nextStmt] :=
  ⟨by decide,
    (multipleInsert_single_round_trip emptyDB noFaults [⟨"Galaxy", 990⟩, ⟨"iPad", 500⟩]
      (by simp) (by decide)).1⟩

/-! ## C7: the new identity goes to the log -/

/-- C7, counterexample. Inserting the same item into a fresh store and into the store of
`main` succeeds in both, the store assigning identity 1 in the first and identity 4 in the
second; the caller receives the same value, nil, in both: the identity is not returned. -/
theorem insert_returns_no_identity :
    (insert emptyDB noFaults ⟨"iphone", 950⟩).2 = none
    ∧ (insert demoDB noFaults ⟨"iphone", 950⟩).2 = none
    ∧ (insert emptyDB noFaults ⟨"iphone", 950⟩).1.table = [⟨1, "iphone", 950⟩]
    ∧ (insert demoDB noFaults ⟨"iphone", 950⟩).1.table
        = demoDB.table ++ [⟨4, "iphone", 950⟩]
    ∧ (insert emptyDB noFaults ⟨"iphone", 950⟩).1.log
        = ["1 items created ", "Item with ID 1 created"]
    ∧ (insert demoDB noFaults ⟨"iphone", 950⟩).1.log
        = ["1 items created ", "Item with ID 4 created"] := by
  decide

/-- C7, amended. For every item, when prepare, execute and the two result reads succeed,
`insert` returns nil, which is all it returns; the identity the store assigned to the new row
and reported as last inserted id of the execute result is written to the log line
`Item with ID <id> created`. -/
theorem insert_logs_identity (db : DB) (f : Faults) (p : item)
    (hp : f.prepare = none) (he : f.exec = none) (hr : f.rowsAffected = none)
    (hl : f.lastInsertId = none) :
    (insert db f p).2 = none
    ∧ (insert db f p).1.table = db.table ++ [⟨db.nextId, p.name, p.price⟩]
    ∧ (insert db f p).1.log
        = db.log ++ ["1 items created ",
            "Item with ID " ++ toString (db.nextId : Int) ++ " created"] := by
  have h1 : toString (1 : Int) = "1" := by decide
  rw [insert_of_prepared db f p hp, insert_body_ok _ _ f p he hr hl]
  simp [Stmt.Close, h1]

/-- Witness of C7 on the first insert of `main`. -/
theorem insert_logs_identity_witness :
    (insert emptyDB noFaults ⟨"iphone", 950⟩).2 = none
    ∧ (insert emptyDB noFaults ⟨"iphone", 950⟩).1.log
        = emptyDB.log ++ ["1 items created ",
            "Item with ID " ++ toString (emptyDB.nextId : Int) ++ " created"] :=
  have h := insert_logs_identity emptyDB noFaults ⟨"iphone", 950⟩ rfl rfl rfl rfl
  ⟨h.1, h.2.2⟩

/-! ## C10: session acquisition stops at the first failing step -/

/-- C10. For every outcome of the steps of `dbConnection` (open without database;
create-database-if-not-exists, that is the `ExecContext` call and the read of its affected
rows; reopen bound to the target database; liveness check): when a step fails, no session is
returned, the error returned is that step's error and the steps performed are exactly those
up to the failing one; a session is returned if and only if every step succeeds, and then no
error is returned; in every case no step is performed more than once. -/
theorem dbConnection_stops_at_first_failure (f : ConnFaults) (no : Int) :
    (∀ m, f.openServer = some m →
      (dbConnection f no).db = none ∧ (dbConnection f no).err = some (SqlError.driver m) ∧
      (dbConnection f no).steps = [ConnStep.sqlOpen (dsn "")])
    ∧ (∀ m, f.openServer = none → f.createDb = some m →
      (dbConnection f no).db = none ∧ (dbConnection f no).err = some (SqlError.driver m) ∧
      (dbConnection f no).steps =
        [ConnStep.sqlOpen (dsn ""),
          ConnStep.execContext "CREATE DATABASE IF NOT EXISTS ecommerce"])
    ∧ (∀ m, f.openServer = none → f.createDb = none → f.rowsAffected = some m →
      (dbConnection f no).db = none ∧ (dbConnection f no).err = some (SqlError.driver m) ∧
      (dbConnection f no).steps =
        [ConnStep.sqlOpen (dsn ""),
          ConnStep.execContext "CREATE DATABASE IF NOT EXISTS ecommerce",
          ConnStep.rowsAffected])
    ∧ (∀ m, f.openServer = none → f.createDb = none → f.rowsAffected = none →
        f.openDb = some m →
      (dbConnection f no).db = none ∧ (dbConnection f no).err = some (SqlError.driver m) ∧
      (dbConnection f no).steps =
        [ConnStep.sqlOpen (dsn ""),
          ConnStep.execContext "CREATE DATABASE IF NOT EXISTS ecommerce",
          ConnStep.rowsAffected, ConnStep.close, ConnStep.sqlOpen (dsn "ecommerce")])
    ∧ (∀ m, f.openServer = none → f.createDb = none → f.rowsAffected = none →
        f.openDb = none → f.ping = some m →
      (dbConnection f no).db = none ∧ (dbConnection f no).err = some (SqlError.driver m) ∧
      (dbConnection f no).steps =
        [ConnStep.sqlOpen (dsn ""),
          ConnStep.execContext "CREATE DATABASE IF NOT EXISTS ecommerce",
          ConnStep.rowsAffected, ConnStep.close, ConnStep.sqlOpen (dsn "ecommerce"),
          ConnStep.setMaxOpenConns 20, ConnStep.setMaxIdleConns 20,
          ConnStep.setConnMaxLifetime 300, ConnStep.pingContext])
    ∧ ((dbConnection f no).db ≠ none ↔
        (f.openServer = none ∧ f.createDb = none ∧ f.rowsAffected = none ∧
          f.openDb = none ∧ f.ping = none))
    ∧ ((dbConnection f no).db ≠ none →
        (dbConnection f no).db = some ⟨dsn "ecommerce", 20, 20, 300⟩ ∧
        (dbConnection f no).err = none ∧
        (dbConnection f no).steps =
          [ConnStep.sqlOpen (dsn ""),
            ConnStep.execContext "CREATE DATABASE IF NOT EXISTS ecommerce",
            ConnStep.rowsAffected, ConnStep.close, ConnStep.sqlOpen (dsn "ecommerce"),
            ConnStep.setMaxOpenConns 20, ConnStep.setMaxIdleConns 20,
            ConnStep.setConnMaxLifetime 300, ConnStep.pingContext])
    ∧ ((dbConnection f no).db = none ↔ (dbConnection f no).err ≠ none)
    ∧ (dbConnection f no).steps.Nodup := by
  obtain ⟨a, b, c, d, e⟩ := f
  cases a <;> cases b <;> cases c <;> cases d <;> cases e <;>
    simp [dbConnection] <;> decide

end Mysql
